import Mathlib

/-!
Shallow embedding of the rpi-pico-usb-mouse firmware core
(`src/fast_math.py`, `src/mouse_mover.py`, `src/movement_modes.py`,
`src/led_controller.py`, `src/random_generator.py`) together with proofs of
the specification's testable properties.

Modelling conventions, used throughout:
* Python `int` is `ℤ`; Python floats are modelled with exact rational
  arithmetic (`ℚ`), i.e. real-number semantics of the floating computations.
* Python's floor division `//` and arithmetic right shift `>>` on integers
  are `Int.fdiv`; Python's `int(x)` conversion (truncation toward zero) is
  `pyInt`; Python's `%` on non-negative operands is `Int.emod` / rational
  floor-mod (`pyFmod`).
* Every call to a random generator (`random_pool.randint`, `uniform`,
  `random`, noise-generator lookups, the trig lookup table built from
  `math.sin`) enters as an explicit oracle argument, one value per draw
  made by the modelled call; theorems quantify over all oracle values.
* `constants.py` is imported by every source module but is absent from the
  repository sources; the few constants the modelled code reads are
  collected in the `Consts` structure, modelled from the spec (`Consts`
  fields are quantified over in the theorems unless a spec value is given).
-/

namespace PicoMouse

/-- Python's `int(x)` applied to a float/rational: truncation toward zero. -/
def pyInt (q : ℚ) : ℤ :=
  if 0 ≤ q then ⌊q⌋ else ⌈q⌉

/-- Python's `x % m` for rationals with a positive modulus (floor-mod),
as used by `_fast_sin`'s `(angle_rad * 57.2957795) % 360`. -/
def pyFmod (a m : ℚ) : ℚ :=
  a - m * ⌊a / m⌋

/-- `fast_math.fast_distance`: Doom-style distance approximation.
`dx = abs(dx); dy = abs(dy); if dx < dy: swap; return dx + (dy >> 1)`. -/
def fastDistance (dx dy : ℤ) : ℤ :=
  let dx' := |dx|
  let dy' := |dy|
  let p := if dx' < dy' then (dy', dx') else (dx', dy')
  p.1 + Int.fdiv p.2 2

/-- `MouseMover._quadratic_bezier`: integer-optimized quadratic Bezier
evaluation.  `t_int = int(t * 100)`, `u_int = 100 - t_int`, then the three
basis terms are combined with Python floor divisions by 100. -/
def quadraticBezier (t : ℚ) (p0 p1 p2 : ℤ) : ℤ :=
  let tInt := pyInt (t * 100)
  let uInt := 100 - tInt
  let uu := Int.fdiv (uInt * uInt) 100
  let tt := Int.fdiv (tInt * tInt) 100
  let ut2 := Int.fdiv (2 * uInt * tInt) 100
  Int.fdiv (uu * p0) 100 + Int.fdiv (ut2 * p1) 100 + Int.fdiv (tt * p2) 100

/-- `MouseMover._calculate_bezier_point` restricted to the Bezier formula:
`t = step / max(total_steps - 1, 1)` and a quadratic-Bezier evaluation on
each axis.  (The performance-stats side effect is dropped.) -/
def calcBezierPoint (step totalSteps : ℕ) (startX startY endX endY controlX controlY : ℤ) :
    ℤ × ℤ :=
  let t : ℚ := (step : ℚ) / (max (totalSteps - 1) 1 : ℕ)
  (quadraticBezier t startX controlX endX, quadraticBezier t startY controlY endY)

/-- The Bezier-delta loop of `MouseMover.quick_move_to_target` (lines 45-53):
starting from `prev = (0,0)`, append `(int(bx - prev_x), int(by - prev_y))`
for each of the remaining `k` steps beginning at index `i`, updating `prev`
to the evaluated point.  All evaluated points are integers, so the `int()`
casts are identities. -/
def bezierGo (endX endY controlX controlY : ℤ) (totalSteps : ℕ) :
    ℕ → ℤ × ℤ → ℕ → List (ℤ × ℤ)
  | _, _, 0 => []
  | i, prev, k + 1 =>
    let b := calcBezierPoint i totalSteps 0 0 endX endY controlX controlY
    (b.1 - prev.1, b.2 - prev.2) :: bezierGo endX endY controlX controlY totalSteps (i + 1) b k

/-- The full `bezier_points` delta list built by `quick_move_to_target`. -/
def bezierDeltas (endX endY controlX controlY : ℤ) (totalSteps : ℕ) : List (ℤ × ℤ) :=
  bezierGo endX endY controlX controlY totalSteps 0 (0, 0) totalSteps

/-- Componentwise sum of a list of integer delta pairs (the cumulative
pointer displacement produced by emitting every delta). -/
def sumDeltas (l : List (ℤ × ℤ)) : ℤ × ℤ :=
  ((l.map Prod.fst).sum, (l.map Prod.snd).sum)

/-- The constants that the modelled code reads from the absent
`constants.py`.  Modelled from the spec: representative values are
`baseStepDistance = 10` and jitter bounds `[0.8, 1.2]` (spec §8); the
remaining fields are left abstract and quantified over. -/
structure Consts where
  baseStepDistance : ℚ
  minBaseSteps : ℤ
  scanSpeedRight : ℤ
  scanSpeedLeft : ℤ
  slowSpeedFactor : ℤ
  circleSpeedChangeProbability : ℚ
  circleNewAngleStepMin : ℚ
  circleNewAngleStepMax : ℚ
  targetFocusAdditionalMoveProbability : ℚ
  transitionTimeDeltaLimit : ℚ
  breatheMaxBrightness : ℚ
  deriving DecidableEq

/-- A concrete instantiation of `Consts` with the spec's representative
values (`base-step = 10`, delta-clamp 100 ms, max brightness 1.0, §8/§4.3);
fields the spec leaves open get plausible concrete values.  Used only by
witness/counterexample theorems, which merely need some instantiation. -/
def specConsts : Consts :=
  { baseStepDistance := 10
    minBaseSteps := 3
    scanSpeedRight := 100
    scanSpeedLeft := 100
    slowSpeedFactor := 50
    circleSpeedChangeProbability := 10
    circleNewAngleStepMin := 5
    circleNewAngleStepMax := 20
    targetFocusAdditionalMoveProbability := 1/10
    transitionTimeDeltaLimit := 1/10
    breatheMaxBrightness := 1 }

/-- `MouseMover` instance state (`mouse_mover.py`, `__init__`).
Times and durations are rationals; the two delta queues and the (never
populated) velocity profile are lists with cursor indices. -/
structure MoverState where
  active : Bool
  currentStep : ℕ
  totalSteps : ℕ
  stepX : ℚ
  stepY : ℚ
  startTime : ℚ
  moveDuration : ℚ
  smallMoveSteps : List (ℤ × ℤ)
  smallMoveIndex : ℕ
  velocityProfile : List ℚ
  bezierPoints : List (ℤ × ℤ)
  bezierIndex : ℕ
  currentX : ℤ
  currentY : ℤ
  deriving DecidableEq

/-- The freshly constructed `MouseMover` (the `__init__` field values). -/
def initMover : MoverState :=
  { active := false
    currentStep := 0
    totalSteps := 0
    stepX := 0
    stepY := 0
    startTime := 0
    moveDuration := 0
    smallMoveSteps := []
    smallMoveIndex := 0
    velocityProfile := []
    bezierPoints := []
    bezierIndex := 0
    currentX := 0
    currentY := 0 }

/-- `MouseMover._generate_bezier_control_point`.  Oracle arguments:
`offPct` is the value drawn by `random_pool.randint(BEZIER_CONTROL_OFFSET_MIN,
BEZIER_CONTROL_OFFSET_MAX)`, and `offX`, `offY` are the two values drawn by
`random_pool.randint(-offset_range, offset_range)`. -/
def genBezierControlPoint (startX startY endX endY : ℤ) (offPct offX offY : ℤ) : ℤ × ℤ :=
  let dx := endX - startX
  let dy := endY - startY
  let midX := startX + Int.fdiv dx 2
  let midY := startY + Int.fdiv dy 2
  let offsetRange := Int.fdiv (|dx + dy| * offPct) 100
  let _ := offsetRange  -- bounds the two draws `offX`, `offY` (oracle values)
  (midX + offX, midY + offY)

/-- The step count computed by `quick_move_to_target`:
`base_steps = max(int(distance / BASE_STEP_DISTANCE), MIN_BASE_STEPS)` and
`total_steps = int(base_steps * u)` where `u` is the
`random_pool.uniform(DISTANCE_RANDOM_FACTOR_MIN, DISTANCE_RANDOM_FACTOR_MAX)`
draw.  A negative `int()` result yields an empty `range`, hence `toNat`. -/
def computeTotalSteps (c : Consts) (distance : ℤ) (u : ℚ) : ℕ :=
  let baseSteps := max (pyInt ((distance : ℚ) / c.baseStepDistance)) c.minBaseSteps
  (pyInt ((baseSteps : ℚ) * u)).toNat

/-- `MouseMover.quick_move_to_target(end_x, end_y, duration_factor=0.02)`.
Oracle arguments: `u` is the uniform jitter draw for the step count;
`offPct`, `offX`, `offY` are the control-point draws; `nowT` is
`time.monotonic()` at the call. -/
def quickMoveToTarget (c : Consts) (endX endY : ℤ) (u : ℚ) (offPct offX offY : ℤ)
    (nowT : ℚ) (s : MoverState) : MoverState :=
  let distance := fastDistance endX endY
  if distance = 0 then s
  else
    let totalSteps := computeTotalSteps c distance u
    let ctrl := genBezierControlPoint 0 0 endX endY offPct offX offY
    { s with
      bezierPoints := bezierDeltas endX endY ctrl.1 ctrl.2 totalSteps
      bezierIndex := 0
      active := true
      startTime := nowT
      moveDuration := 2 / 100 }

/-- One call to `MouseMover.update()`: returns the new state, the pointer
delta emitted through `mouse.move` (if any), and the completion flag. -/
def moverUpdate (s : MoverState) : MoverState × Option (ℤ × ℤ) × Bool :=
  if !s.active then (s, none, true)
  else if s.smallMoveSteps ≠ [] then
    if h : s.smallMoveIndex < s.smallMoveSteps.length then
      ({ s with smallMoveIndex := s.smallMoveIndex + 1 },
        some (s.smallMoveSteps.get ⟨s.smallMoveIndex, h⟩), false)
    else
      ({ s with smallMoveSteps := [], active := false }, none, true)
  else if s.bezierPoints ≠ [] then
    if h : s.bezierIndex < s.bezierPoints.length then
      ({ s with bezierIndex := s.bezierIndex + 1 },
        some (s.bezierPoints.get ⟨s.bezierIndex, h⟩), false)
    else
      ({ s with bezierPoints := [], active := false }, none, true)
  else
    ({ s with active := false }, none, true)

/-- Drive `MouseMover.update()` repeatedly (at most `fuel` calls) until it
returns `true`, collecting every emitted pointer delta.  The `Bool` result
records whether completion was reached within the fuel. -/
def runMover : ℕ → MoverState → List (ℤ × ℤ) × MoverState × Bool
  | 0, s => ([], s, false)
  | fuel + 1, s =>
    match moverUpdate s with
    | (s', em, true) => (em.toList, s', true)
    | (s', em, false) =>
      let rest := runMover fuel s'
      (em.toList ++ rest.1, rest.2.1, rest.2.2)

/-! ### Basic facts about the embedded primitives -/

theorem fastDistance_eq_zero_iff (dx dy : ℤ) :
    fastDistance dx dy = 0 ↔ dx = 0 ∧ dy = 0 := by
  unfold fastDistance
  have hdx : 0 ≤ |dx| := abs_nonneg dx
  have hdy : 0 ≤ |dy| := abs_nonneg dy
  have h2 : ∀ a : ℤ, 0 ≤ a → 0 ≤ Int.fdiv a 2 := fun a ha => Int.fdiv_nonneg ha (by norm_num)
  constructor
  · intro h
    by_cases hlt : |dx| < |dy|
    · simp only [hlt, if_true] at h
      have h1 : |dy| = 0 := by
        have := h2 |dx| hdx
        omega
      have : |dx| = 0 := by
        rw [h1] at hlt
        omega
      exact ⟨abs_eq_zero.mp this, abs_eq_zero.mp h1⟩
    · simp only [hlt, if_false] at h
      have h1 : |dx| = 0 := by
        have := h2 |dy| hdy
        omega
      have h3 : |dy| = 0 := by
        push_neg at hlt
        omega
      exact ⟨abs_eq_zero.mp h1, abs_eq_zero.mp h3⟩
  · rintro ⟨h1, h2⟩
    subst h1
    subst h2
    decide

theorem pyInt_intCast (z : ℤ) : pyInt (z : ℚ) = z := by
  unfold pyInt
  by_cases h : (0 : ℚ) ≤ (z : ℚ) <;> simp [h]

/-- At parameter `t = 1` (the final step of a motion with at least two
steps) the integer-optimized Bezier evaluation lands exactly on `p2`. -/
theorem quadraticBezier_one (p0 p1 p2 : ℤ) : quadraticBezier 1 p0 p1 p2 = p2 := by
  have h100 : pyInt ((1 : ℚ) * 100) = 100 := by
    unfold pyInt
    norm_num
  simp only [quadraticBezier, h100]
  norm_num [Int.zero_fdiv, Int.mul_fdiv_cancel_left]
  rw [show Int.fdiv (10000 : ℤ) 100 = 100 by decide]
  exact Int.mul_fdiv_cancel_left p2 (by norm_num)

/-- The final evaluated Bezier point of an `n ≥ 2` step motion from the
origin is exactly the requested endpoint. -/
theorem calcBezierPoint_last (n : ℕ) (hn : 2 ≤ n) (endX endY controlX controlY : ℤ) :
    calcBezierPoint (n - 1) n 0 0 endX endY controlX controlY = (endX, endY) := by
  unfold calcBezierPoint
  have h1 : max (n - 1) 1 = n - 1 := by omega
  have h2 : ((n - 1 : ℕ) : ℚ) ≠ 0 := by
    have : 1 ≤ n - 1 := by omega
    exact_mod_cast Nat.one_le_iff_ne_zero.mp this
  rw [h1, div_self h2]
  show (quadraticBezier 1 0 controlX endX, quadraticBezier 1 0 controlY endY) = (endX, endY)
  rw [quadraticBezier_one, quadraticBezier_one]

theorem bezierGo_length (endX endY controlX controlY : ℤ) (n : ℕ) :
    ∀ (k i : ℕ) (prev : ℤ × ℤ),
      (bezierGo endX endY controlX controlY n i prev k).length = k := by
  intro k
  induction k with
  | zero => intro i prev; rfl
  | succ k ih =>
    intro i prev
    simp only [bezierGo, List.length_cons]
    rw [ih]

theorem sumDeltas_cons (a : ℤ × ℤ) (l : List (ℤ × ℤ)) :
    sumDeltas (a :: l) = (a.1 + (sumDeltas l).1, a.2 + (sumDeltas l).2) := by
  simp [sumDeltas]

/-- Telescoping: the deltas appended by the Bezier loop over `k + 1` steps
starting at index `i` from point `prev` sum to (last point − `prev`). -/
theorem bezierGo_sum (endX endY controlX controlY : ℤ) (n : ℕ) :
    ∀ (k i : ℕ) (prev : ℤ × ℤ),
      sumDeltas (bezierGo endX endY controlX controlY n i prev (k + 1)) =
        ((calcBezierPoint (i + k) n 0 0 endX endY controlX controlY).1 - prev.1,
         (calcBezierPoint (i + k) n 0 0 endX endY controlX controlY).2 - prev.2) := by
  intro k
  induction k with
  | zero =>
    intro i prev
    simp only [bezierGo, sumDeltas_cons]
    simp [sumDeltas]
  | succ k ih =>
    intro i prev
    have hstep :
        bezierGo endX endY controlX controlY n i prev (k + 1 + 1) =
          ((calcBezierPoint i n 0 0 endX endY controlX controlY).1 - prev.1,
           (calcBezierPoint i n 0 0 endX endY controlX controlY).2 - prev.2) ::
            bezierGo endX endY controlX controlY n (i + 1)
              (calcBezierPoint i n 0 0 endX endY controlX controlY) (k + 1) := rfl
    rw [hstep, sumDeltas_cons, ih (i + 1)]
    have harith : i + 1 + k = i + (k + 1) := by omega
    rw [harith]
    ring_nf

/-- For a motion of `n ≥ 2` steps the whole `bezier_points` delta list sums
exactly to the requested displacement. -/
theorem bezierDeltas_sum (endX endY controlX controlY : ℤ) (n : ℕ) (hn : 2 ≤ n) :
    sumDeltas (bezierDeltas endX endY controlX controlY n) = (endX, endY) := by
  unfold bezierDeltas
  obtain ⟨k, rfl⟩ : ∃ k, n = k + 1 := ⟨n - 1, by omega⟩
  rw [bezierGo_sum]
  have h : (0 : ℕ) + k = k + 1 - 1 := by omega
  rw [h, calcBezierPoint_last (k + 1) hn]
  simp

theorem runMover_step_notDone (fuel : ℕ) (s s' : MoverState) (em : Option (ℤ × ℤ))
    (h : moverUpdate s = (s', em, false)) :
    runMover (fuel + 1) s =
      (em.toList ++ (runMover fuel s').1, (runMover fuel s').2.1, (runMover fuel s').2.2) := by
  simp only [runMover, h]

/-- Driving `MouseMover.update()` to completion over an active Bezier
motion emits exactly the queued deltas from the cursor on, and leaves the
Mover inactive with the queue cleared. -/
theorem runMover_bezier (l : List (ℤ × ℤ)) :
    ∀ (k j : ℕ) (s : MoverState),
      s.active = true → s.smallMoveSteps = [] → s.bezierPoints = l → s.bezierIndex = j →
      j ≤ l.length → k = l.length - j →
      runMover (k + 1) s =
        (l.drop j,
         { s with bezierIndex := l.length, bezierPoints := [], active := false }, true) := by
  intro k
  induction k with
  | zero =>
    intro j s ha hsm hbp hbi hj hk
    have hj' : j = l.length := by omega
    subst hj'
    simp only [runMover, moverUpdate, ha, hsm, hbp]
    by_cases hl : l = []
    · subst hl
      simp only [List.length_nil] at hbi ⊢
      simp [hbi, List.drop_nil]
    · have hlt : ¬ s.bezierIndex < l.length := by omega
      simp [hl, hbp, hlt, hbi, List.drop_length]
  | succ k ih =>
    intro j s ha hsm hbp hbi hj hk
    have hjlt : j < l.length := by omega
    have hl : l ≠ [] := by
      intro h
      subst h
      simp at hjlt
    have hidx : s.bezierIndex < s.bezierPoints.length := by
      rw [hbp, hbi]
      exact hjlt
    have hidx' : s.bezierIndex < l.length := by
      rw [hbi]
      exact hjlt
    have hstep :
        moverUpdate s =
          ({ s with bezierIndex := s.bezierIndex + 1 },
            some (l.get ⟨s.bezierIndex, hidx'⟩), false) := by
      simp only [moverUpdate, ha, hsm, hbp]
      simp [hl, hidx', hbp]
    rw [runMover_step_notDone (k + 1) s _ _ hstep]
    rw [ih (j + 1) _ (by simp [ha]) (by simp [hsm]) (by simp [hbp]) (by simp [hbi])
      (by omega) (by omega)]
    have hget : l.get ⟨s.bezierIndex, hidx'⟩ = l.get ⟨j, hjlt⟩ := by
      simp [hbi]
    rw [hget, List.drop_eq_getElem_cons hjlt]
    simp

/-! ### Claim C1 and C2 -/

/-- C1: for every non-zero requested displacement `(dx, dy)`, starting
`quick_move_to_target(dx, dy)` on an inactive Mover (empty small-move
queue) and calling `update()` repeatedly until it returns `true` emits
pointer deltas whose per-axis sum equals the requested displacement within
a rounding tolerance of ±1 (in fact exactly), for every drawn control
point and jitter, whenever the randomized step count is at least 2. -/
theorem quickMove_run_sum_within_tolerance
    (c : Consts) (endX endY : ℤ) (u : ℚ) (offPct offX offY : ℤ) (nowT : ℚ)
    (s : MoverState) (hnz : ¬(endX = 0 ∧ endY = 0)) (hsm : s.smallMoveSteps = [])
    (hn : 2 ≤ computeTotalSteps c (fastDistance endX endY) u) :
    let s1 := quickMoveToTarget c endX endY u offPct offX offY nowT s
    let r := runMover (s1.bezierPoints.length + 1) s1
    r.2.2 = true ∧ (r.2.1).active = false ∧
      ((sumDeltas r.1).1 - endX).natAbs ≤ 1 ∧ ((sumDeltas r.1).2 - endY).natAbs ≤ 1 := by
  intro s1 r
  have hd : ¬ fastDistance endX endY = 0 := fun h =>
    hnz ((fastDistance_eq_zero_iff endX endY).mp h)
  have hs1 : s1 =
      { s with
        bezierPoints :=
          bezierDeltas endX endY
            (genBezierControlPoint 0 0 endX endY offPct offX offY).1
            (genBezierControlPoint 0 0 endX endY offPct offX offY).2
            (computeTotalSteps c (fastDistance endX endY) u)
        bezierIndex := 0
        active := true
        startTime := nowT
        moveDuration := 2 / 100 } := by
    show quickMoveToTarget c endX endY u offPct offX offY nowT s = _
    simp only [quickMoveToTarget, hd, if_false]
  have hrun := runMover_bezier s1.bezierPoints s1.bezierPoints.length 0 s1
    (by rw [hs1]) (by rw [hs1]; exact hsm) rfl (by rw [hs1]) (by omega) (by omega)
  have hr : r = (s1.bezierPoints, _, true) := hrun
  have hsum : sumDeltas s1.bezierPoints = (endX, endY) := by
    rw [hs1]
    exact bezierDeltas_sum endX endY _ _ _ hn
  refine ⟨by rw [hr], by rw [hr], ?_, ?_⟩
  · rw [hr]
    simp only [List.drop_zero] at hr ⊢
    rw [hsum]
    simp
  · rw [hr]
    simp only [List.drop_zero] at hr ⊢
    rw [hsum]
    simp

/-- Witness for C1: requesting displacement `(3, 4)` with jitter draw 1 and
zero control-point offsets on a fresh Mover sums exactly to `(3, 4)`. -/
theorem quickMove_run_sum_within_tolerance_witness :
    let s1 := quickMoveToTarget specConsts 3 4 1 0 0 0 0 initMover
    let r := runMover (s1.bezierPoints.length + 1) s1
    r.2.2 = true ∧ (r.2.1).active = false ∧
      ((sumDeltas r.1).1 - 3).natAbs ≤ 1 ∧ ((sumDeltas r.1).2 - 4).natAbs ≤ 1 :=
  quickMove_run_sum_within_tolerance specConsts 3 4 1 0 0 0 0 initMover
    (by decide) rfl (by with_unfolding_all decide)

/-- C2: for displacement `(0, 0)` the call `quick_move_to_target(0, 0)` is
a no-op — the approximate distance is 0 exactly when both components are 0,
the Mover state is returned unchanged (so an inactive Mover stays inactive
with empty step queues), and `update()` on the inactive Mover emits no
pointer event and returns `true`. -/
theorem quickMove_zero_displacement_noop
    (c : Consts) (u : ℚ) (offPct offX offY : ℤ) (nowT : ℚ)
    (s : MoverState) (hs : s.active = false) :
    (∀ dx dy : ℤ, fastDistance dx dy = 0 ↔ dx = 0 ∧ dy = 0) ∧
    quickMoveToTarget c 0 0 u offPct offX offY nowT s = s ∧
    moverUpdate s = (s, none, true) := by
  refine ⟨fastDistance_eq_zero_iff, ?_, ?_⟩
  · simp [quickMoveToTarget, fastDistance]
  · simp [moverUpdate, hs]

/-- Witness for C2: the no-op holds at the freshly constructed Mover. -/
theorem quickMove_zero_displacement_noop_witness :
    (∀ dx dy : ℤ, fastDistance dx dy = 0 ↔ dx = 0 ∧ dy = 0) ∧
    quickMoveToTarget specConsts 0 0 1 0 0 0 0 initMover = initMover ∧
    moverUpdate initMover = (initMover, none, true) :=
  quickMove_zero_displacement_noop specConsts 1 0 0 0 0 initMover rfl

/-! ### Claim C4 -/

/-- C4 counterexample: for the concrete non-zero request `(300, 0)` (with
jitter draw 1, zero control offsets, fresh Mover, spec constants) the
computed step count is 30, yet `quick_move_to_target` leaves
`velocity_profile` empty — no velocity profile sized to the step count is
built, refuting the claim at this input. -/
theorem quickMove_velocity_profile_not_built :
    (quickMoveToTarget specConsts 300 0 1 0 0 0 0 initMover).velocityProfile.length ≠
      computeTotalSteps specConsts (fastDistance 300 0) 1 ∧
    (quickMoveToTarget specConsts 300 0 1 0 0 0 0 initMover).velocityProfile = [] ∧
    computeTotalSteps specConsts (fastDistance 300 0) 1 = 30 := by
  have hd : ¬ fastDistance 300 0 = 0 := by decide
  have hv : (quickMoveToTarget specConsts 300 0 1 0 0 0 0 initMover).velocityProfile = [] := by
    simp only [quickMoveToTarget, hd, if_false]
    rfl
  have hc : computeTotalSteps specConsts (fastDistance 300 0) 1 = 30 := by
    with_unfolding_all decide
  refine ⟨?_, hv, hc⟩
  rw [hv, hc]
  decide

/-- C4 amended: `quick_move_to_target` does not populate the Mover's
`velocity_profile` (the field is left exactly as it was, empty for a fresh
Mover); instead, for a non-zero displacement it builds the `bezier_points`
delta list, and that list is sized to the computed step count. -/
theorem quickMove_profile_untouched_bezier_sized
    (c : Consts) (endX endY : ℤ) (u : ℚ) (offPct offX offY : ℤ) (nowT : ℚ)
    (s : MoverState) (hnz : ¬(endX = 0 ∧ endY = 0)) :
    (quickMoveToTarget c endX endY u offPct offX offY nowT s).velocityProfile =
      s.velocityProfile ∧
    (quickMoveToTarget c endX endY u offPct offX offY nowT s).bezierPoints.length =
      computeTotalSteps c (fastDistance endX endY) u := by
  have hd : ¬ fastDistance endX endY = 0 := fun h =>
    hnz ((fastDistance_eq_zero_iff endX endY).mp h)
  constructor
  · simp only [quickMoveToTarget, hd, if_false]
  · simp only [quickMoveToTarget, hd, if_false]
    exact bezierGo_length _ _ _ _ _ _ _ _

/-- Witness for the amended C4 at the concrete request `(5, -2)`. -/
theorem quickMove_profile_untouched_bezier_sized_witness :
    (quickMoveToTarget specConsts 5 (-2) 1 0 0 0 0 initMover).velocityProfile =
      initMover.velocityProfile ∧
    (quickMoveToTarget specConsts 5 (-2) 1 0 0 0 0 initMover).bezierPoints.length =
      computeTotalSteps specConsts (fastDistance 5 (-2)) 1 :=
  quickMove_profile_untouched_bezier_sized specConsts 5 (-2) 1 0 0 0 0 initMover (by decide)

/-! ### Random generator (`random_generator.py`) -/

/-- One full state transition of `FastRandom` (the three xorshift steps
shared by `random()` and `random_int16()`), on 32-bit masked state. -/
def xorshiftNext (s : ℕ) : ℕ :=
  let s1 := s ^^^ ((s <<< 13) &&& 0xFFFFFFFF)
  let s2 := s1 ^^^ ((s1 >>> 17) &&& 0xFFFFFFFF)
  s2 ^^^ ((s2 <<< 5) &&& 0xFFFFFFFF)

/-- The 16-bit value returned by `FastRandom.random_int16()` when the
generator's state is `s` (output of the advanced state). -/
def randomInt16 (s : ℕ) : ℕ :=
  xorshiftNext s &&& 0xFFFF

/-- `FastRandom.randint(a, b)` given the drawn 16-bit value `r16`:
`a + (rand_int * range_size) // 65536` with `range_size = b - a + 1`. -/
def fastRandint (a b : ℤ) (r16 : ℕ) : ℤ :=
  a + Int.fdiv ((r16 : ℤ) * (b - a + 1)) 65536

/-- `FastRandom.uniform(a, b)` given the drawn 16-bit value `r16`:
`a + (rand_int * range_val) / 65536` (float division, modelled exactly). -/
def fastUniform (a b : ℚ) (r16 : ℕ) : ℚ :=
  a + ((r16 : ℚ) * (b - a)) / 65536

/-- `RandomPool.randint(a)` with a single argument (the `b is None` branch):
delegates to `generator.randint(-100, 100)`. -/
def poolRandintNone (r16 : ℕ) : ℤ :=
  fastRandint (-100) 100 r16

/-- The hard-coded `RandomRangeManager.ranges` dict together with the
`.get(name, (-100, 100))` default, modelled as a key-comparison chain. -/
def rangeManagerGetRange (name : String) : ℤ × ℤ :=
  if name = "web_browse_x" then (-400, 400)
  else if name = "web_browse_y" then (-100, 100)
  else if name = "page_scan_start_x" then (-150, -50)
  else if name = "page_scan_y" then (-600, 600)
  else if name = "page_scan_end_x" then (600, 800)
  else if name = "exploratory_move" then (-200, 200)
  else if name = "random_move" then (-150, 150)
  else if name = "circle_center" then (-600, 600)
  else if name = "target_focus" then (-400, 400)
  else (-100, 100)

/-- `RandomRangeManager.randint(range_name)` given the 16-bit draw. -/
def rangeManagerRandint (name : String) (r16 : ℕ) : ℤ :=
  let p := rangeManagerGetRange name
  fastRandint p.1 p.2 r16

/-- State of a `WeightedRandom` instance after `__init__`. -/
structure WeightedRandomState where
  items : List String
  weights : List ℕ
  cumulativeWeights : List ℕ
  totalWeight : ℕ
  deriving DecidableEq

/-- The `WeightedRandom.__init__` accumulation loop. -/
def weightedRandomInit (itemsWithWeights : List (String × ℕ)) : WeightedRandomState :=
  itemsWithWeights.foldl
    (fun st p =>
      { items := st.items ++ [p.1]
        weights := st.weights ++ [p.2]
        totalWeight := st.totalWeight + p.2
        cumulativeWeights := st.cumulativeWeights ++ [st.totalWeight + p.2] })
    { items := [], weights := [], cumulativeWeights := [], totalWeight := 0 }

/-- The scan loop of `WeightedRandom.choice`: index of the first cumulative
weight `cw` with `r <= cw` (`for i, cw in enumerate(...): if r <= cw:
return items[i]`). -/
def firstAtMost (r : ℕ) : List ℕ → Option ℕ
  | [] => none
  | c :: rest => if r ≤ c then some 0 else (firstAtMost r rest).map (· + 1)

/-- `WeightedRandom.choice()` as a function of the freshly drawn 16-bit
value `r16`: `r = (rand_int * total_weight) >> 16`, then the first index
whose cumulative weight is `>= r` (inclusive comparison), defaulting to the
last item; `none` only for an empty selector. -/
def weightedChoiceAt (w : WeightedRandomState) (r16 : ℕ) : Option String :=
  if w.items = [] then none
  else if w.totalWeight = 0 then w.items.head?
  else
    let r := (r16 * w.totalWeight) >>> 16
    match firstAtMost r w.cumulativeWeights with
    | some i => w.items.get? i
    | none => w.items.getLast?

/-- `MODE_WEIGHTS` from `random_generator.py`. -/
def MODE_WEIGHTS : List (String × ℕ) :=
  [("web_browsing", 25), ("page_scanning", 20), ("exploratory_move", 20),
   ("random_movement", 15), ("circular_move", 10), ("target_focus", 10)]

/-- The module-level `weighted_mode_selector`. -/
def weightedModeSelector : WeightedRandomState :=
  weightedRandomInit MODE_WEIGHTS

/-- Number of the 65536 equally likely 16-bit draws for which the weighted
mode selector returns mode `m`. -/
def modeDrawCount (m : String) : ℕ :=
  (List.range 65536).countP fun v => decide (weightedChoiceAt weightedModeSelector v = some m)

/-- The seed used by `FastRandom.__init__` when `seed is None`:
`int(time.monotonic() * 1000000) & 0xFFFFFFFF`, as a function of the
monotonic-clock microsecond count. -/
def timeSeededState (tMicros : ℕ) : ℕ :=
  tMicros &&& 0xFFFFFFFF

/-- The result of `WeightedRandom.choice()` on the mode selector as a
function of the wall-clock microsecond count at the call: `choice`
constructs a fresh `FastRandom()` (time-seeded) and draws one 16-bit
value from it. -/
def freshChoiceAtTime (tMicros : ℕ) : Option String :=
  weightedChoiceAt weightedModeSelector (randomInt16 (timeSeededState tMicros))

theorem weightedModeSelector_eval :
    weightedModeSelector =
      { items := ["web_browsing", "page_scanning", "exploratory_move", "random_movement",
          "circular_move", "target_focus"]
        weights := [25, 20, 20, 15, 10, 10]
        cumulativeWeights := [25, 45, 65, 80, 90, 100]
        totalWeight := 100 } := rfl

/-- Closed form of the mode selector's decision as a function of the raw
16-bit draw: thresholds via `r = v * 100 / 65536` and the source's
inclusive comparisons. -/
theorem weightedChoiceAt_formula (v : ℕ) :
    weightedChoiceAt weightedModeSelector v =
      some (if v * 100 / 65536 ≤ 25 then "web_browsing"
        else if v * 100 / 65536 ≤ 45 then "page_scanning"
        else if v * 100 / 65536 ≤ 65 then "exploratory_move"
        else if v * 100 / 65536 ≤ 80 then "random_movement"
        else if v * 100 / 65536 ≤ 90 then "circular_move"
        else "target_focus") := by
  rw [weightedChoiceAt, weightedModeSelector_eval]
  have hr : (v * 100) >>> 16 = v * 100 / 65536 := by
    rw [Nat.shiftRight_eq_div_pow]
  simp only [hr]
  norm_num [firstAtMost]
  constructor
  · simp
  · split_ifs <;> simp

theorem countP_range_interval (lo hi : ℕ) :
    ∀ n, (List.range n).countP (fun v => decide (lo ≤ v ∧ v < hi)) = min hi n - min lo n := by
  intro n
  induction n with
  | zero => simp
  | succ n ih =>
    rw [List.range_succ, List.countP_append, ih]
    by_cases h1 : lo ≤ n <;> by_cases h2 : n < hi <;>
      simp [List.countP_cons, h1, h2] <;> omega

theorem modeDrawCount_interval (m : String) (lo hi : ℕ) (hlo : lo ≤ hi) (hhi : hi ≤ 65536)
    (h : ∀ v, v < 65536 →
      ((weightedChoiceAt weightedModeSelector v = some m) ↔ (lo ≤ v ∧ v < hi))) :
    modeDrawCount m = hi - lo := by
  unfold modeDrawCount
  have hc : ∀ v ∈ List.range 65536,
      (decide (weightedChoiceAt weightedModeSelector v = some m) = true ↔
        decide (lo ≤ v ∧ v < hi) = true) := by
    intro v hv
    rw [List.mem_range] at hv
    simp only [decide_eq_true_eq]
    exact h v hv
  rw [List.countP_congr hc, countP_range_interval]
  omega

theorem modeDrawCount_web : modeDrawCount "web_browsing" = 17040 := by
  rw [modeDrawCount_interval "web_browsing" 0 17040 (by norm_num) (by norm_num) ?_]
  intro v hv
  rw [weightedChoiceAt_formula, Option.some_inj]
  split_ifs with h1 h2 h3 h4 h5 <;> simp <;> omega

theorem modeDrawCount_page : modeDrawCount "page_scanning" = 13107 := by
  rw [modeDrawCount_interval "page_scanning" 17040 30147 (by norm_num) (by norm_num) ?_]
  intro v hv
  rw [weightedChoiceAt_formula, Option.some_inj]
  split_ifs with h1 h2 h3 h4 h5 <;> simp <;> omega

theorem modeDrawCount_expl : modeDrawCount "exploratory_move" = 13107 := by
  rw [modeDrawCount_interval "exploratory_move" 30147 43254 (by norm_num) (by norm_num) ?_]
  intro v hv
  rw [weightedChoiceAt_formula, Option.some_inj]
  split_ifs with h1 h2 h3 h4 h5 <;> simp <;> omega

theorem modeDrawCount_rand : modeDrawCount "random_movement" = 9831 := by
  rw [modeDrawCount_interval "random_movement" 43254 53085 (by norm_num) (by norm_num) ?_]
  intro v hv
  rw [weightedChoiceAt_formula, Option.some_inj]
  split_ifs with h1 h2 h3 h4 h5 <;> simp <;> omega

theorem modeDrawCount_circ : modeDrawCount "circular_move" = 6553 := by
  rw [modeDrawCount_interval "circular_move" 53085 59638 (by norm_num) (by norm_num) ?_]
  intro v hv
  rw [weightedChoiceAt_formula, Option.some_inj]
  split_ifs with h1 h2 h3 h4 h5 <;> simp <;> omega

theorem modeDrawCount_focus : modeDrawCount "target_focus" = 5898 := by
  rw [modeDrawCount_interval "target_focus" 59638 65536 (by norm_num) (by norm_num) ?_]
  intro v hv
  rw [weightedChoiceAt_formula, Option.some_inj]
  split_ifs with h1 h2 h3 h4 h5 <;> simp <;> omega

/-! ### Claims C5 and C6 -/

/-- C5 counterexample: with the 16-bit draw uniform on `[0, 65536)`,
`web_browsing` is selected for exactly 17040 of the 65536 draws, i.e. with
probability `17040/65536 ≈ 0.26` — not exactly its weight share
`25/100`, refuting the claim (the scan uses an inclusive `r <=
cumulative_weight` comparison and 65536 is not divisible by 100). -/
theorem weighted_choice_web_probability_not_exact :
    modeDrawCount "web_browsing" = 17040 ∧
      ((17040 : ℚ) / 65536 ≠ 25 / 100) := by
  refine ⟨modeDrawCount_web, by norm_num⟩

/-- C5 amended: assuming the underlying 16-bit value is uniform on
`[0, 65536)`, the six modes are returned with probabilities exactly
`17040/65536`, `13107/65536`, `13107/65536`, `9831/65536`, `6553/65536`
and `5898/65536` respectively (≈ 0.2600, 0.2000, 0.2000, 0.1500, 0.1000,
0.0900) — close to, but for `web_browsing` and `target_focus` not equal
to, `weight/total_weight`; the counts partition all 65536 draws. -/
theorem weighted_choice_exact_counts :
    modeDrawCount "web_browsing" = 17040 ∧
    modeDrawCount "page_scanning" = 13107 ∧
    modeDrawCount "exploratory_move" = 13107 ∧
    modeDrawCount "random_movement" = 9831 ∧
    modeDrawCount "circular_move" = 6553 ∧
    modeDrawCount "target_focus" = 5898 ∧
    17040 + 13107 + 13107 + 9831 + 6553 + 5898 = 65536 :=
  ⟨modeDrawCount_web, modeDrawCount_page, modeDrawCount_expl, modeDrawCount_rand,
    modeDrawCount_circ, modeDrawCount_focus, by norm_num⟩

/-- C6: `WeightedRandom.choice` constructs a fresh time-seeded
`FastRandom()` on every call, so the selected mode is a function of the
wall-clock microsecond count at the call and differs across call times —
the weighted mode-selection draw is not independent of wall-clock time
(refuting determinism-per-seed at this draw site).  Concretely, calls at
clock readings 1 µs and 3 µs select different modes. -/
theorem weighted_choice_depends_on_wall_clock :
    freshChoiceAtTime 1 = some "web_browsing" ∧
    freshChoiceAtTime 3 = some "page_scanning" ∧
    freshChoiceAtTime 1 ≠ freshChoiceAtTime 3 := by
  refine ⟨by decide, by decide, by decide⟩

/-! ### Claim C10 -/

/-- C10: `FastRandom.randint(a, b)` stays in `[a, b]` for `a ≤ b` with
range size at most 65536 and any 16-bit draw; `FastRandom.uniform(a, b)`
stays in `[a, b]` for `a ≤ b`; consequently `RandomRangeManager.randint`
stays inside the named declared range for every range name (including the
default), and `RandomPool.randint`'s single-argument branch stays in
`[-100, 100]`. -/
theorem random_draws_within_declared_bounds
    (a b : ℤ) (aq bq : ℚ) (r16 : ℕ) (name : String)
    (hab : a ≤ b) (hsize : b - a + 1 ≤ 65536) (hr : r16 ≤ 65535) (habq : aq ≤ bq) :
    (a ≤ fastRandint a b r16 ∧ fastRandint a b r16 ≤ b) ∧
    (aq ≤ fastUniform aq bq r16 ∧ fastUniform aq bq r16 ≤ bq) ∧
    ((rangeManagerGetRange name).1 ≤ rangeManagerRandint name r16 ∧
      rangeManagerRandint name r16 ≤ (rangeManagerGetRange name).2) ∧
    (-100 ≤ poolRandintNone r16 ∧ poolRandintNone r16 ≤ 100) := by
  have hcore : ∀ a' b' : ℤ, a' ≤ b' → b' - a' + 1 ≤ 65536 →
      a' ≤ fastRandint a' b' r16 ∧ fastRandint a' b' r16 ≤ b' := by
    intro a' b' hab' hsize'
    have hr' : (r16 : ℤ) ≤ 65535 := by exact_mod_cast hr
    have hr0 : (0 : ℤ) ≤ (r16 : ℤ) := Int.ofNat_nonneg r16
    have hfd : fastRandint a' b' r16 =
        a' + ((r16 : ℤ) * (b' - a' + 1)) / 65536 := by
      unfold fastRandint
      rw [Int.fdiv_eq_ediv _ (by norm_num)]
    have hx1 : 0 ≤ (r16 : ℤ) * (b' - a' + 1) := mul_nonneg hr0 (by omega)
    have hx2 : (r16 : ℤ) * (b' - a' + 1) ≤ 65535 * (b' - a' + 1) :=
      mul_le_mul_of_nonneg_right hr' (by omega)
    rw [hfd]
    constructor
    · have := Int.ediv_nonneg hx1 (by norm_num : (0:ℤ) ≤ 65536)
      omega
    · generalize hxg : (r16 : ℤ) * (b' - a' + 1) = x at hx1 hx2
      omega
  have huni : aq ≤ fastUniform aq bq r16 ∧ fastUniform aq bq r16 ≤ bq := by
    have hr' : (r16 : ℚ) ≤ 65535 := by exact_mod_cast hr
    have hr0 : (0 : ℚ) ≤ (r16 : ℚ) := Nat.cast_nonneg r16
    have hd : (0 : ℚ) ≤ bq - aq := by linarith
    unfold fastUniform
    constructor
    · nlinarith
    · nlinarith
  have hrange : (rangeManagerGetRange name).1 ≤ (rangeManagerGetRange name).2 ∧
      (rangeManagerGetRange name).2 - (rangeManagerGetRange name).1 + 1 ≤ 65536 := by
    unfold rangeManagerGetRange
    split_ifs <;> norm_num
  refine ⟨hcore a b hab hsize, huni, ?_, hcore (-100) 100 (by norm_num) (by norm_num)⟩
  exact hcore _ _ hrange.1 hrange.2

/-- Witness for C10: the concrete draw `r16 = 65535` on `randint(-10, 10)`,
`uniform(0, 1)` and the named range `"circle_center"`. -/
theorem random_draws_within_declared_bounds_witness :
    ((-10 : ℤ) ≤ fastRandint (-10) 10 65535 ∧ fastRandint (-10) 10 65535 ≤ 10) ∧
    ((0 : ℚ) ≤ fastUniform 0 1 65535 ∧ fastUniform 0 1 65535 ≤ 1) ∧
    ((rangeManagerGetRange "circle_center").1 ≤ rangeManagerRandint "circle_center" 65535 ∧
      rangeManagerRandint "circle_center" 65535 ≤ (rangeManagerGetRange "circle_center").2) ∧
    ((-100 : ℤ) ≤ poolRandintNone 65535 ∧ poolRandintNone 65535 ≤ 100) :=
  random_draws_within_declared_bounds (-10) 10 0 1 65535 "circle_center"
    (by norm_num) (by norm_num) (by norm_num) (by norm_num)

/-! ### Mode factory (`movement_modes.py`, `ModeFactory.create_mode`) -/

/-- The six registered movement-mode classes. -/
inductive ModeTag
  | webBrowsing
  | pageScanning
  | exploratoryMove
  | randomMovement
  | circularMove
  | targetFocus
  deriving DecidableEq

/-- The six registered mode names (the keys of the factory's dict). -/
def knownModeNames : List String :=
  ["web_browsing", "page_scanning", "exploratory_move", "random_movement",
   "circular_move", "target_focus"]

/-- `ModeFactory.create_mode`: the dict lookup (modelled as a
key-comparison chain) returns the matching mode class, and an unmatched
name raises `ValueError(f"Unknown mode: {mode_name}")`. -/
def createMode (name : String) : Except String ModeTag :=
  if name = "web_browsing" then .ok .webBrowsing
  else if name = "page_scanning" then .ok .pageScanning
  else if name = "exploratory_move" then .ok .exploratoryMove
  else if name = "random_movement" then .ok .randomMovement
  else if name = "circular_move" then .ok .circularMove
  else if name = "target_focus" then .ok .targetFocus
  else .error ("Unknown mode: " ++ name)

/-- C9: for every name outside the six registered ones,
`ModeFactory.create_mode` fails fast with the descriptive
`"Unknown mode: ..."` error (it never returns a mode instance), and each
registered name maps to its corresponding mode class. -/
theorem createMode_fail_fast_or_registered (name : String) :
    (name ∉ knownModeNames → createMode name = .error ("Unknown mode: " ++ name)) ∧
    createMode "web_browsing" = .ok .webBrowsing ∧
    createMode "page_scanning" = .ok .pageScanning ∧
    createMode "exploratory_move" = .ok .exploratoryMove ∧
    createMode "random_movement" = .ok .randomMovement ∧
    createMode "circular_move" = .ok .circularMove ∧
    createMode "target_focus" = .ok .targetFocus := by
  refine ⟨?_, by simp [createMode], by simp [createMode], by simp [createMode],
    by simp [createMode], by simp [createMode], by simp [createMode]⟩
  intro h
  simp only [knownModeNames, List.mem_cons, List.not_mem_nil, or_false, not_or] at h
  obtain ⟨h1, h2, h3, h4, h5, h6⟩ := h
  simp [createMode, h1, h2, h3, h4, h5, h6]

/-- Witness for C9 at the unregistered name `"bogus"`. -/
theorem createMode_fail_fast_or_registered_witness :
    createMode "bogus" = .error ("Unknown mode: bogus") ∧
    createMode "web_browsing" = .ok .webBrowsing :=
  ⟨(createMode_fail_fast_or_registered "bogus").1 (by decide),
    (createMode_fail_fast_or_registered "web_browsing").2.1⟩

/-! ### LED controller (`led_controller.py`) -/

/-- LED mode strings `'active'` / `'idle'`. -/
inductive LedMode
  | active
  | idle
  deriving DecidableEq

/-- `LEDController` instance state.  The external `pixels` sink's settable
brightness and last filled color are part of the state; `show()` has no
modelled effect.  (The `transition_start_time`/`transition_duration` pair
used only by `start_transition`/`is_transition_complete` is omitted: no
modelled method reads it.) -/
structure LEDState where
  lastTime : ℚ
  currentBrightnessInt : ℤ
  brightnessDirection : ℤ
  brightnessTransitionActive : Bool
  brightnessTransitionStart : ℚ
  brightnessTransitionDuration : ℚ
  brightnessStart : ℤ
  brightnessTarget : ℤ
  currentColor : ℤ × ℤ × ℤ
  targetColor : ℤ × ℤ × ℤ
  colorTransitionActive : Bool
  colorTransitionStart : ℚ
  colorTransitionDuration : ℚ
  ledMode : LedMode
  pixelsBrightness : ℚ
  pixelsColor : ℤ × ℤ × ℤ
  lastColor : Option (ℤ × ℤ × ℤ)
  deriving DecidableEq

/-- The `LEDController.__init__` field values, given the construction time
and the pixel sink's pre-existing brightness and color. -/
def initLED (now pixelsBrightness : ℚ) (pixelsColor : ℤ × ℤ × ℤ) : LEDState :=
  { lastTime := now
    currentBrightnessInt := 100
    brightnessDirection := -1
    brightnessTransitionActive := false
    brightnessTransitionStart := 0
    brightnessTransitionDuration := 1 / 2
    brightnessStart := 100
    brightnessTarget := 100
    currentColor := (0, 0, 0)
    targetColor := (0, 0, 0)
    colorTransitionActive := false
    colorTransitionStart := 0
    colorTransitionDuration := 2
    ledMode := .idle
    pixelsBrightness := pixelsBrightness
    pixelsColor := pixelsColor
    lastColor := none }

/-- `LEDController._ease_in_out`: cubic ease-in-out. -/
def easeInOut (t : ℚ) : ℚ :=
  if t < 1 / 2 then 4 * t * t * t
  else
    let p := 2 * t - 2
    1 + p * p * p / 2

/-- One channel of `LEDController._lerp_color`:
`int(c1 + (c2 - c1) * eased_t)`. -/
def lerpChan (a b : ℤ) (easedT : ℚ) : ℤ :=
  pyInt ((a : ℚ) + ((b : ℚ) - (a : ℚ)) * easedT)

/-- `LEDController._lerp_color` on RGB triples. -/
def lerpColor (c1 c2 : ℤ × ℤ × ℤ) (t : ℚ) : ℤ × ℤ × ℤ :=
  let easedT := easeInOut t
  (lerpChan c1.1 c2.1 easedT, lerpChan c1.2.1 c2.2.1 easedT, lerpChan c1.2.2 c2.2.2 easedT)

/-- The color displayed by `LEDController.update()` during a transition
from `c1` to `c2` that started at time `start`, sampled at time `now`
(the color-phase branch of `update`). -/
def displayColorAt (c1 c2 : ℤ × ℤ × ℤ) (start duration now : ℚ) : ℤ × ℤ × ℤ :=
  if now - start ≥ duration then c2
  else lerpColor c1 c2 ((now - start) / duration)

/-- Phase 1 of `LEDController.update()` (color transition): returns the
display color and the (possibly transition-completed) state. -/
def ledColorPhase (now : ℚ) (s : LEDState) : (ℤ × ℤ × ℤ) × LEDState :=
  if s.colorTransitionActive then
    let elapsed := now - s.colorTransitionStart
    if elapsed ≥ s.colorTransitionDuration then
      (s.targetColor, { s with colorTransitionActive := false, currentColor := s.targetColor })
    else
      (lerpColor s.currentColor s.targetColor (elapsed / s.colorTransitionDuration), s)
  else (s.currentColor, s)

/-- Phase 2 of `LEDController.update()` (brightness): brightness
transition, constant `active` brightness, or the `idle` breathing step
with clamp-and-flip.  Returns the brightness and the new state. -/
def ledBrightnessPhase (c : Consts) (now timeDelta : ℚ) (s : LEDState) : ℚ × LEDState :=
  if s.brightnessTransitionActive then
    let elapsed := now - s.brightnessTransitionStart
    if elapsed ≥ s.brightnessTransitionDuration then
      ((s.brightnessTarget : ℚ) * (1 / 100),
        { s with brightnessTransitionActive := false,
                 currentBrightnessInt := s.brightnessTarget })
    else
      let t := elapsed / s.brightnessTransitionDuration
      let nb := pyInt ((s.brightnessStart : ℚ) +
        ((s.brightnessTarget : ℚ) - (s.brightnessStart : ℚ)) * t)
      ((nb : ℚ) * (1 / 100), { s with currentBrightnessInt := nb })
  else if s.ledMode = .active then
    (c.breatheMaxBrightness, s)
  else
    let deltaInt := pyInt (timeDelta * 200)
    let b1 := s.currentBrightnessInt + s.brightnessDirection * deltaInt
    let bd : ℤ × ℤ :=
      if b1 ≥ 100 then (100, -1)
      else if b1 ≤ 10 then (10, 1)
      else (b1, s.brightnessDirection)
    ((bd.1 : ℚ) * (1 / 100), { s with currentBrightnessInt := bd.1,
                                      brightnessDirection := bd.2 })

/-- Phase 3 of `LEDController.update()` (apply to pixels, eliding writes
when neither brightness nor color changed). -/
def ledPixelPhase (displayColor : ℤ × ℤ × ℤ) (brightness : ℚ) (s : LEDState) : LEDState :=
  let s3 := if |s.pixelsBrightness - brightness| > 1 / 100
            then { s with pixelsBrightness := brightness } else s
  if some displayColor ≠ s3.lastColor
  then { s3 with pixelsColor := displayColor, lastColor := some displayColor } else s3

/-- `LEDController.update()`: per-tick time-delta clamp, then the three
phases in source order. -/
def ledUpdate (c : Consts) (now : ℚ) (s0 : LEDState) : LEDState :=
  let timeDelta := min (now - s0.lastTime) c.transitionTimeDeltaLimit
  let s := { s0 with lastTime := now }
  let cres := ledColorPhase now s
  let bres := ledBrightnessPhase c now timeDelta cres.2
  ledPixelPhase cres.1 bres.1 bres.2

/-- A sequence of `LEDController.update()` calls at the given times. -/
def ledRun (c : Consts) (times : List ℚ) (s : LEDState) : LEDState :=
  times.foldl (fun st t => ledUpdate c t st) s

/-- One `update()` in idle mode with no brightness transition always lands
the breathing brightness inside `[10, 100]` (the clamp-and-flip logic
bounds it for any per-tick time delta), and preserves the idle/no-transition
flags. -/
theorem ledColorPhase_preserves (now : ℚ) (s : LEDState) :
    ((ledColorPhase now s).2).currentBrightnessInt = s.currentBrightnessInt ∧
    ((ledColorPhase now s).2).brightnessDirection = s.brightnessDirection ∧
    ((ledColorPhase now s).2).ledMode = s.ledMode ∧
    ((ledColorPhase now s).2).brightnessTransitionActive = s.brightnessTransitionActive := by
  unfold ledColorPhase
  dsimp only
  split_ifs <;> simp

theorem ledPixelPhase_preserves (dc : ℤ × ℤ × ℤ) (b : ℚ) (s : LEDState) :
    ((ledPixelPhase dc b s)).currentBrightnessInt = s.currentBrightnessInt ∧
    ((ledPixelPhase dc b s)).brightnessDirection = s.brightnessDirection ∧
    ((ledPixelPhase dc b s)).ledMode = s.ledMode ∧
    ((ledPixelPhase dc b s)).brightnessTransitionActive = s.brightnessTransitionActive := by
  unfold ledPixelPhase
  dsimp only
  split_ifs <;> simp

/-- The idle breathing step always lands `current_brightness_int` inside
`[10, 100]` — for any (even huge or negative) time delta — and keeps the
idle/no-transition flags. -/
theorem ledBrightnessPhase_idle (c : Consts) (now timeDelta : ℚ) (s : LEDState)
    (hmode : s.ledMode = .idle) (htr : s.brightnessTransitionActive = false) :
    (10 ≤ ((ledBrightnessPhase c now timeDelta s).2).currentBrightnessInt ∧
      ((ledBrightnessPhase c now timeDelta s).2).currentBrightnessInt ≤ 100) ∧
    ((ledBrightnessPhase c now timeDelta s).2).ledMode = .idle ∧
    ((ledBrightnessPhase c now timeDelta s).2).brightnessTransitionActive = false := by
  unfold ledBrightnessPhase
  rw [htr, hmode]
  dsimp only
  split_ifs <;> simp_all <;> omega

theorem ledUpdate_idle_step (c : Consts) (now : ℚ) (s : LEDState)
    (hmode : s.ledMode = .idle) (htr : s.brightnessTransitionActive = false) :
    (10 ≤ (ledUpdate c now s).currentBrightnessInt ∧
      (ledUpdate c now s).currentBrightnessInt ≤ 100) ∧
    (ledUpdate c now s).ledMode = .idle ∧
    (ledUpdate c now s).brightnessTransitionActive = false := by
  unfold ledUpdate
  dsimp only
  have hc := ledColorPhase_preserves now { s with lastTime := now }
  set s1 := (ledColorPhase now { s with lastTime := now }).2 with hs1
  have hb := ledBrightnessPhase_idle c now
    (min (now - s.lastTime) c.transitionTimeDeltaLimit) s1
    (by rw [hc.2.2.1]; exact hmode) (by rw [hc.2.2.2]; exact htr)
  set s2 := ((ledBrightnessPhase c now
    (min (now - s.lastTime) c.transitionTimeDeltaLimit) s1)).2 with hs2
  have hp := ledPixelPhase_preserves (ledColorPhase now { s with lastTime := now }).1
    (ledBrightnessPhase c now (min (now - s.lastTime) c.transitionTimeDeltaLimit) s1).1 s2
  rw [hp.1, hp.2.2.1, hp.2.2.2]
  exact ⟨hb.1, hb.2⟩

/-- C7: starting from idle (breathing) mode with no brightness transition
and breathing brightness within `[10, 100]` (`current_brightness_int`,
i.e. brightness in `[0.10, 1.00]`), any sequence of `update()` calls at
arbitrary wall-clock times — however large the gaps — keeps the breathing
brightness within `[10, 100]`. -/
theorem led_breathing_brightness_bounded (c : Consts) (times : List ℚ) (s : LEDState)
    (hmode : s.ledMode = .idle) (htr : s.brightnessTransitionActive = false)
    (hlo : 10 ≤ s.currentBrightnessInt) (hhi : s.currentBrightnessInt ≤ 100) :
    10 ≤ (ledRun c times s).currentBrightnessInt ∧
      (ledRun c times s).currentBrightnessInt ≤ 100 := by
  induction times generalizing s with
  | nil => exact ⟨hlo, hhi⟩
  | cons t rest ih =>
    have hstep := ledUpdate_idle_step c t s hmode htr
    exact ih (ledUpdate c t s) hstep.2.1 hstep.2.2 hstep.1.1 hstep.1.2

/-- Witness for C7: three updates with a huge 1000-second gap between them,
starting from the freshly constructed controller. -/
theorem led_breathing_brightness_bounded_witness :
    10 ≤ (ledRun specConsts [1000, 2000, 3000] (initLED 0 1 (0, 0, 0))).currentBrightnessInt ∧
      (ledRun specConsts [1000, 2000, 3000] (initLED 0 1 (0, 0, 0))).currentBrightnessInt ≤ 100 :=
  led_breathing_brightness_bounded specConsts [1000, 2000, 3000] (initLED 0 1 (0, 0, 0))
    rfl rfl (by norm_num [initLED]) (by norm_num [initLED])

/-! ### Claim C8: color transition -/

theorem easeInOut_zero : easeInOut 0 = 0 := by
  norm_num [easeInOut]

theorem easeInOut_one : easeInOut 1 = 1 := by
  norm_num [easeInOut]

/-- The cubic ease-in-out is monotone on `[0, 1]`. -/
theorem easeInOut_mono {t1 t2 : ℚ} (h0 : 0 ≤ t1) (h12 : t1 ≤ t2) (h2 : t2 ≤ 1) :
    easeInOut t1 ≤ easeInOut t2 := by
  unfold easeInOut
  dsimp only
  split_ifs with ha hb hb
  · nlinarith [sq_nonneg (t1 + t2), sq_nonneg (t1 - t2)]
  · nlinarith [sq_nonneg (2 * t2 - 2), sq_nonneg t1]
  · linarith
  · nlinarith [sq_nonneg ((2 * t1 - 2) + (2 * t2 - 2)), sq_nonneg ((2 * t1 - 2) - (2 * t2 - 2))]

/-- The cubic ease-in-out maps `[0, 1]` into `[0, 1]`. -/
theorem easeInOut_mem {t : ℚ} (h0 : 0 ≤ t) (h1 : t ≤ 1) :
    0 ≤ easeInOut t ∧ easeInOut t ≤ 1 :=
  ⟨easeInOut_zero ▸ easeInOut_mono le_rfl h0 h1,
    easeInOut_one ▸ easeInOut_mono h0 h1 le_rfl⟩

theorem pyInt_eq_floor {q : ℚ} (h : 0 ≤ q) : pyInt q = ⌊q⌋ := by
  simp [pyInt, h]

/-- Endpoint, betweenness and monotonicity of one eased channel, for
non-negative channel values and eased parameters in `[0, 1]`. -/
theorem lerpChan_props (a b : ℤ) (ha : 0 ≤ a) (hb : 0 ≤ b) :
    lerpChan a b 0 = a ∧ lerpChan a b 1 = b ∧
    (∀ e : ℚ, 0 ≤ e → e ≤ 1 →
      min a b ≤ lerpChan a b e ∧ lerpChan a b e ≤ max a b) ∧
    (∀ e1 e2 : ℚ, 0 ≤ e1 → e1 ≤ e2 → e2 ≤ 1 →
      (a ≤ b → lerpChan a b e1 ≤ lerpChan a b e2) ∧
      (b ≤ a → lerpChan a b e2 ≤ lerpChan a b e1)) := by
  have hval : ∀ e : ℚ, 0 ≤ e → e ≤ 1 →
      (0 : ℚ) ≤ (a : ℚ) + ((b : ℚ) - (a : ℚ)) * e := by
    intro e he0 he1
    rcases le_total a b with h | h
    · have ha' : (0 : ℚ) ≤ (a : ℚ) := by exact_mod_cast ha
      have h' : (a : ℚ) ≤ (b : ℚ) := by exact_mod_cast h
      nlinarith
    · have hb' : (0 : ℚ) ≤ (b : ℚ) := by exact_mod_cast hb
      have h' : (b : ℚ) ≤ (a : ℚ) := by exact_mod_cast h
      nlinarith
  have hfloor : ∀ e : ℚ, 0 ≤ e → e ≤ 1 →
      lerpChan a b e = ⌊(a : ℚ) + ((b : ℚ) - (a : ℚ)) * e⌋ := by
    intro e he0 he1
    exact pyInt_eq_floor (hval e he0 he1)
  refine ⟨?_, ?_, ?_, ?_⟩
  · rw [hfloor 0 le_rfl zero_le_one]
    norm_num
  · rw [hfloor 1 zero_le_one le_rfl]
    norm_num
  · intro e he0 he1
    rw [hfloor e he0 he1]
    have hmin : ((min a b : ℤ) : ℚ) ≤ (a : ℚ) + ((b : ℚ) - (a : ℚ)) * e := by
      rcases le_total a b with h | h
      · rw [min_eq_left h]
        have h' : (a : ℚ) ≤ (b : ℚ) := by exact_mod_cast h
        nlinarith
      · rw [min_eq_right h]
        have h' : (b : ℚ) ≤ (a : ℚ) := by exact_mod_cast h
        nlinarith
    have hmax : (a : ℚ) + ((b : ℚ) - (a : ℚ)) * e ≤ ((max a b : ℤ) : ℚ) := by
      rcases le_total a b with h | h
      · rw [max_eq_right h]
        have h' : (a : ℚ) ≤ (b : ℚ) := by exact_mod_cast h
        nlinarith
      · rw [max_eq_left h]
        have h' : (b : ℚ) ≤ (a : ℚ) := by exact_mod_cast h
        nlinarith
    constructor
    · calc (min a b : ℤ) = ⌊((min a b : ℤ) : ℚ)⌋ := (Int.floor_intCast _).symm
        _ ≤ ⌊(a : ℚ) + ((b : ℚ) - (a : ℚ)) * e⌋ := Int.floor_le_floor hmin
    · calc ⌊(a : ℚ) + ((b : ℚ) - (a : ℚ)) * e⌋ ≤ ⌊((max a b : ℤ) : ℚ)⌋ :=
            Int.floor_le_floor hmax
        _ = max a b := Int.floor_intCast _
  · intro e1 e2 he1 he12 he2
    rw [hfloor e1 he1 (le_trans he12 he2), hfloor e2 (le_trans he1 he12) he2]
    constructor
    · intro hab
      apply Int.floor_le_floor
      have : ((a : ℚ)) ≤ (b : ℚ) := by exact_mod_cast hab
      nlinarith
    · intro hba
      apply Int.floor_le_floor
      have : ((b : ℚ)) ≤ (a : ℚ) := by exact_mod_cast hba
      nlinarith

/-- One channel of the transition display color. -/
def displayChan (a b : ℤ) (start duration t : ℚ) : ℤ :=
  if duration ≤ t - start then b
  else lerpChan a b (easeInOut ((t - start) / duration))

theorem displayColorAt_channels (c1 c2 : ℤ × ℤ × ℤ) (start duration t : ℚ) :
    (displayColorAt c1 c2 start duration t).1 = displayChan c1.1 c2.1 start duration t ∧
    (displayColorAt c1 c2 start duration t).2.1 = displayChan c1.2.1 c2.2.1 start duration t ∧
    (displayColorAt c1 c2 start duration t).2.2 = displayChan c1.2.2 c2.2.2 start duration t := by
  unfold displayColorAt displayChan lerpColor
  split_ifs with h
  · exact ⟨rfl, rfl, rfl⟩
  · exact ⟨rfl, rfl, rfl⟩

/-- Endpoints, betweenness and monotonicity of one display channel. -/
theorem displayChan_props (a b : ℤ) (ha : 0 ≤ a) (hb : 0 ≤ b)
    (start duration : ℚ) (hdur : 0 < duration) :
    displayChan a b start duration start = a ∧
    (∀ t, start + duration ≤ t → displayChan a b start duration t = b) ∧
    (∀ t, start ≤ t → min a b ≤ displayChan a b start duration t ∧
      displayChan a b start duration t ≤ max a b) ∧
    (∀ t1 t2, start ≤ t1 → t1 ≤ t2 →
      (a ≤ b → displayChan a b start duration t1 ≤ displayChan a b start duration t2) ∧
      (b ≤ a → displayChan a b start duration t2 ≤ displayChan a b start duration t1)) := by
  obtain ⟨hz, ho, hbet, hmono⟩ := lerpChan_props a b ha hb
  have hratio_mem : ∀ t, start ≤ t → ¬ duration ≤ t - start →
      0 ≤ (t - start) / duration ∧ (t - start) / duration ≤ 1 := by
    intro t ht hnd
    constructor
    · apply div_nonneg <;> linarith
    · rw [div_le_one hdur]
      linarith
  have hD_in : ∀ t, start ≤ t → min a b ≤ displayChan a b start duration t ∧
      displayChan a b start duration t ≤ max a b := by
    intro t ht
    by_cases hpast : duration ≤ t - start
    · simp only [displayChan, hpast, if_true]
      exact ⟨min_le_right a b, le_max_right a b⟩
    · simp only [displayChan, hpast, if_false]
      obtain ⟨hr0, hr1⟩ := hratio_mem t ht hpast
      obtain ⟨he0, he1⟩ := easeInOut_mem hr0 hr1
      exact hbet _ he0 he1
  refine ⟨?_, ?_, hD_in, ?_⟩
  · have hns : ¬ duration ≤ start - start := by
      rw [sub_self]
      linarith
    simp only [displayChan, hns, if_false]
    rw [sub_self, zero_div, easeInOut_zero]
    exact hz
  · intro t ht
    have hgt : duration ≤ t - start := by linarith
    simp only [displayChan, hgt, if_true]
  · intro t1 t2 ht1 ht12
    by_cases hp2 : duration ≤ t2 - start
    · simp only [displayChan, hp2, if_true]
      by_cases hp1 : duration ≤ t1 - start
      · simp only [hp1, if_true]
        exact ⟨fun _ => le_rfl, fun _ => le_rfl⟩
      · simp only [hp1, if_false]
        obtain ⟨hr0, hr1⟩ := hratio_mem t1 ht1 hp1
        obtain ⟨he0, he1⟩ := easeInOut_mem hr0 hr1
        have hb2 := hbet _ he0 he1
        constructor
        · intro hab
          have := hb2.2
          rwa [max_eq_right hab] at this
        · intro hba
          have := hb2.1
          rwa [min_eq_right hba] at this
    · have hp1 : ¬ duration ≤ t1 - start := fun h => hp2 (by linarith)
      simp only [displayChan, hp1, hp2, if_false]
      have ht2 : start ≤ t2 := le_trans ht1 ht12
      obtain ⟨hr01, hr11⟩ := hratio_mem t1 ht1 hp1
      obtain ⟨hr02, hr12⟩ := hratio_mem t2 ht2 hp2
      have hrr : (t1 - start) / duration ≤ (t2 - start) / duration := by
        rw [div_le_div_iff hdur hdur]
        nlinarith
      have hee := easeInOut_mono hr01 hrr hr12
      exact hmono _ _ (easeInOut_mem hr01 hr11).1 hee (easeInOut_mem hr02 hr12).2

/-- C8: for a color transition from `c1` to `c2` over a positive duration,
the sampled display color (the color-phase branch of `update`, tied to
`displayColorAt` by the first conjunct) equals `c1` at elapsed time 0,
equals `c2` exactly once the elapsed time reaches the duration, and in
between every RGB channel stays between its `c1` and `c2` values and moves
monotonically toward `c2` — no overshoot, no reversal. -/
theorem led_color_transition_correct
    (c1 c2 : ℤ × ℤ × ℤ) (start duration : ℚ) (hdur : 0 < duration)
    (h1r : 0 ≤ c1.1) (h1g : 0 ≤ c1.2.1) (h1b : 0 ≤ c1.2.2)
    (h2r : 0 ≤ c2.1) (h2g : 0 ≤ c2.2.1) (h2b : 0 ≤ c2.2.2) :
    (∀ (now : ℚ) (s : LEDState), s.colorTransitionActive = true → s.currentColor = c1 →
      s.targetColor = c2 → s.colorTransitionStart = start →
      s.colorTransitionDuration = duration →
      (ledColorPhase now s).1 = displayColorAt c1 c2 start duration now) ∧
    displayColorAt c1 c2 start duration start = c1 ∧
    (∀ t, start + duration ≤ t → displayColorAt c1 c2 start duration t = c2) ∧
    (∀ t, start ≤ t →
      (min c1.1 c2.1 ≤ (displayColorAt c1 c2 start duration t).1 ∧
        (displayColorAt c1 c2 start duration t).1 ≤ max c1.1 c2.1) ∧
      (min c1.2.1 c2.2.1 ≤ (displayColorAt c1 c2 start duration t).2.1 ∧
        (displayColorAt c1 c2 start duration t).2.1 ≤ max c1.2.1 c2.2.1) ∧
      (min c1.2.2 c2.2.2 ≤ (displayColorAt c1 c2 start duration t).2.2 ∧
        (displayColorAt c1 c2 start duration t).2.2 ≤ max c1.2.2 c2.2.2)) ∧
    (∀ t1 t2, start ≤ t1 → t1 ≤ t2 →
      ((c1.1 ≤ c2.1 → (displayColorAt c1 c2 start duration t1).1 ≤
          (displayColorAt c1 c2 start duration t2).1) ∧
        (c2.1 ≤ c1.1 → (displayColorAt c1 c2 start duration t2).1 ≤
          (displayColorAt c1 c2 start duration t1).1)) ∧
      ((c1.2.1 ≤ c2.2.1 → (displayColorAt c1 c2 start duration t1).2.1 ≤
          (displayColorAt c1 c2 start duration t2).2.1) ∧
        (c2.2.1 ≤ c1.2.1 → (displayColorAt c1 c2 start duration t2).2.1 ≤
          (displayColorAt c1 c2 start duration t1).2.1)) ∧
      ((c1.2.2 ≤ c2.2.2 → (displayColorAt c1 c2 start duration t1).2.2 ≤
          (displayColorAt c1 c2 start duration t2).2.2) ∧
        (c2.2.2 ≤ c1.2.2 → (displayColorAt c1 c2 start duration t2).2.2 ≤
          (displayColorAt c1 c2 start duration t1).2.2))) := by
  obtain ⟨e1z, e1o, e1in, e1mono⟩ := displayChan_props c1.1 c2.1 h1r h2r start duration hdur
  obtain ⟨e2z, e2o, e2in, e2mono⟩ :=
    displayChan_props c1.2.1 c2.2.1 h1g h2g start duration hdur
  obtain ⟨e3z, e3o, e3in, e3mono⟩ :=
    displayChan_props c1.2.2 c2.2.2 h1b h2b start duration hdur
  refine ⟨?_, ?_, ?_, ?_, ?_⟩
  · intro now s hact hc ht hs hd
    unfold ledColorPhase displayColorAt
    rw [hact, hc, ht, hs, hd]
    simp only [if_true]
    split_ifs <;> rfl
  · have hch := displayColorAt_channels c1 c2 start duration start
    rw [Prod.ext_iff, Prod.ext_iff]
    exact ⟨by rw [hch.1, e1z], by rw [hch.2.1, e2z], by rw [hch.2.2, e3z]⟩
  · intro t ht
    have hch := displayColorAt_channels c1 c2 start duration t
    rw [Prod.ext_iff, Prod.ext_iff]
    exact ⟨by rw [hch.1]; exact e1o t ht, by rw [hch.2.1]; exact e2o t ht,
      by rw [hch.2.2]; exact e3o t ht⟩
  · intro t ht
    have hch := displayColorAt_channels c1 c2 start duration t
    rw [hch.1, hch.2.1, hch.2.2]
    exact ⟨e1in t ht, e2in t ht, e3in t ht⟩
  · intro t1 t2 ht1 ht12
    have hcha := displayColorAt_channels c1 c2 start duration t1
    have hchb := displayColorAt_channels c1 c2 start duration t2
    rw [hcha.1, hcha.2.1, hcha.2.2, hchb.1, hchb.2.1, hchb.2.2]
    exact ⟨e1mono t1 t2 ht1 ht12, e2mono t1 t2 ht1 ht12, e3mono t1 t2 ht1 ht12⟩

/-- Witness for C8: the transition `(0,0,0) → (255,100,50)` over the
source's 2-second duration, sampled at times 0, 1/2, 1 and 2. -/
theorem led_color_transition_correct_witness :
    displayColorAt (0, 0, 0) (255, 100, 50) 0 2 0 = (0, 0, 0) ∧
    displayColorAt (0, 0, 0) (255, 100, 50) 0 2 2 = (255, 100, 50) ∧
    (min (0 : ℤ) 255 ≤ (displayColorAt (0, 0, 0) (255, 100, 50) 0 2 1).1 ∧
      (displayColorAt (0, 0, 0) (255, 100, 50) 0 2 1).1 ≤ max (0 : ℤ) 255) ∧
    ((0 : ℤ) ≤ 255 →
      (displayColorAt (0, 0, 0) (255, 100, 50) 0 2 (1/2)).1 ≤
        (displayColorAt (0, 0, 0) (255, 100, 50) 0 2 1).1) := by
  have h := led_color_transition_correct (0, 0, 0) (255, 100, 50) 0 2
    (by norm_num) (by norm_num) (by norm_num) (by norm_num)
    (by norm_num) (by norm_num) (by norm_num)
  exact ⟨h.2.1, h.2.2.1 2 (by norm_num), (h.2.2.2.1 1 (by norm_num)).1,
    (h.2.2.2.2 (1/2) 1 (by norm_num) (by norm_num)).1.1⟩

/-! ### Movement modes (`movement_modes.py`)

Each mode's `update(state)` is embedded as a function of the current time,
an oracle record `Draws` holding the values produced by the random /
noise draws the call makes, the shared Mover state, and the mode's state
record; it returns the new Mover state, the new mode state, the pointer
deltas emitted during the call, and the completion flag. -/

/-- The three-way `random_pool.choice(["pause", "slow", "normal"])` draw. -/
inductive PauseChoice
  | pause
  | slow
  | normal
  deriving DecidableEq

/-- Oracle values for the draws a single mode-`update` call can make.
Each field is the value returned by the corresponding source call site;
`windN` indexes the per-step `value_noise_2d` pairs of the page-scan
trajectory regeneration. -/
structure Draws where
  randA : ℤ
  randB : ℤ
  noiseA : ℚ
  noiseB : ℚ
  roll : ℚ
  factor : ℚ
  interval : ℕ
  choice3 : PauseChoice
  windN : ℕ → ℚ × ℚ
  scanOffY : ℤ
  yOffset : ℤ
  qmU : ℚ
  qmOffPct : ℤ
  qmOffX : ℤ
  qmOffY : ℤ

/-- `WebBrowsingMode` state dict. -/
structure WebState where
  targetX : ℤ
  targetY : ℤ
  smallMovesLeft : ℤ
  currentX : ℤ
  currentY : ℤ
  timeAtLocation : ℚ
  totalTimeAtLocation : ℚ
  timeOffset : ℚ
  startTime : Option ℚ
  deriving DecidableEq

/-- `WebBrowsingMode.update`. -/
def webUpdate (now : ℚ) (d : Draws) (mv : MoverState) (st : WebState) :
    MoverState × WebState × List (ℤ × ℤ) × Bool :=
  if mv.active then
    let r := moverUpdate mv
    (r.1, st, r.2.1.toList, false)
  else if st.smallMovesLeft > 0 then
    let smX := d.randA + pyInt (d.noiseA * 2)
    let smY := d.randB + pyInt (d.noiseB * 2)
    (mv, { st with currentX := st.currentX + smX, currentY := st.currentY + smY,
                   smallMovesLeft := st.smallMovesLeft - 1 }, [(smX, smY)], false)
  else if st.timeAtLocation < st.totalTimeAtLocation then
    let s0 := st.startTime.getD now
    (mv, { st with startTime := some s0, timeAtLocation := now - s0 }, [], false)
  else (mv, st, [], true)

/-- `PageScanningMode` state dict.  (`scan_bezier_points` is stored in the
dict, but since `hasattr` on a dict is always `False` the stored list is
never reused across calls — the trajectory is regenerated per call.) -/
structure ScanState where
  startX : ℤ
  startY : ℤ
  endX : ℤ
  distance : ℤ
  steps : ℕ
  stepX : ℚ
  currentStep : ℕ
  currentX : ℤ
  currentY : ℤ
  scanDirection : ℤ
  scanCount : ℕ
  totalScans : ℕ
  timeOffset : ℚ
  scanBezierPoints : List (ℤ × ℤ)
  deriving DecidableEq

/-- The scan-trajectory loop (`PageScanningMode.update`, lines 154-168):
Bezier evaluation plus wind noise, appending consecutive-point deltas. -/
def scanBezierGo (steps : ℕ) (sx ex sy cx cy : ℤ) (windN : ℕ → ℚ × ℚ) :
    ℕ → ℤ × ℤ → ℕ → List (ℤ × ℤ)
  | _, _, 0 => []
  | i, prev, k + 1 =>
    let t : ℚ := (i : ℚ) / (max (steps - 1) 1 : ℕ)
    let bx := quadraticBezier t sx cx ex
    let bv := quadraticBezier t sy cy sy
    let windX := (windN i).1 * 3
    let windY := (windN i).2 * 3
    let bx2 := bx + pyInt windX
    let bv2 := bv + Int.fdiv (pyInt windY) 2
    (bx2 - prev.1, bv2 - prev.2) ::
      scanBezierGo steps sx ex sy cx cy windN (i + 1) (bx2, bv2) k

/-- The full regenerated `scan_bezier_points` list. -/
def scanBezierList (steps : ℕ) (sx ex sy cx cy : ℤ) (windN : ℕ → ℚ × ℚ) :
    List (ℤ × ℤ) :=
  scanBezierGo steps sx ex sy cx cy windN 0 (sx, sy) steps

/-- `PageScanningMode.update`. -/
def scanUpdate (c : Consts) (d : Draws) (mv : MoverState) (st : ScanState) :
    MoverState × ScanState × List (ℤ × ℤ) × Bool :=
  if mv.active then
    let r := moverUpdate mv
    (r.1, st, r.2.1.toList, false)
  else if st.currentStep < st.steps then
    -- `hasattr(state, "scan_bezier_points")` is always False on a dict,
    -- so this regeneration runs on every call.
    let sx := if st.scanDirection = 1 then st.startX else st.endX
    let ex := if st.scanDirection = 1 then st.endX else st.startX
    let dx := ex - sx
    let midX := sx + Int.fdiv dx 2
    let offsetRange := Int.fdiv |dx| 10
    let _ := offsetRange  -- bounds the oracle draw `d.scanOffY`
    let controlX := midX
    let controlY := st.startY + d.scanOffY
    let _ := controlX
    let pts := scanBezierList st.steps sx ex st.startY controlX controlY d.windN
    let st1 := { st with scanBezierPoints := pts }
    if h : st1.currentStep < pts.length then
      let p := pts.get ⟨st1.currentStep, h⟩
      let xm1 := if st1.scanDirection = 1 then Int.fdiv (p.1 * c.scanSpeedRight) 100
                 else Int.fdiv (p.1 * c.scanSpeedLeft) 100
      let xm2 := if st1.currentStep = pts.length - 1 then
                   (if st1.scanDirection = 1 then st1.endX else st1.startX) - st1.currentX
                 else xm1
      if st1.currentStep % d.interval = 0 then
        match d.choice3 with
        | .pause => (mv, st1, [], false)
        | .slow =>
          let xm3 := Int.fdiv (xm2 * c.slowSpeedFactor) 100
          (mv, { st1 with currentX := st1.currentX + xm3, currentY := st1.currentY + p.2,
                          currentStep := st1.currentStep + 1 }, [(xm3, p.2)], false)
        | .normal =>
          (mv, { st1 with currentX := st1.currentX + xm2, currentY := st1.currentY + p.2,
                          currentStep := st1.currentStep + 1 }, [(xm2, p.2)], false)
      else
        (mv, { st1 with currentX := st1.currentX + xm2, currentY := st1.currentY + p.2,
                        currentStep := st1.currentStep + 1 }, [(xm2, p.2)], false)
    else
      (mv, { st1 with currentStep := st1.currentStep + 1 }, [], false)
  else
    let sc := st.scanCount + 1
    if sc ≥ st.totalScans then
      (mv, { st with scanCount := sc }, [], true)
    else
      (mv, { st with scanCount := sc, scanDirection := -st.scanDirection,
                     currentStep := 0, currentY := st.currentY + d.yOffset },
        [(0, d.yOffset)], false)

/-- `ExploratoryMovementMode` state dict. -/
structure ExploreState where
  targetX : ℤ
  targetY : ℤ
  exploratoryMovesLeft : ℤ
  currentX : ℤ
  currentY : ℤ
  timeAtExploration : ℚ
  totalTimeAtExploration : ℚ
  lastMoveTime : ℚ
  explorationStartTime : Option ℚ
  deriving DecidableEq

/-- `ExploratoryMovementMode.update` (1.5-second inter-move cooldown;
`quick_move_to_target` restarts the Mover and itself consumes the `qm*`
oracle draws). -/
def exploreUpdate (c : Consts) (now : ℚ) (d : Draws) (mv : MoverState) (st : ExploreState) :
    MoverState × ExploreState × List (ℤ × ℤ) × Bool :=
  if mv.active then
    let r := moverUpdate mv
    (r.1, st, r.2.1.toList, false)
  else if st.exploratoryMovesLeft > 0 then
    if st.lastMoveTime = 0 ∨ 3 / 2 ≤ now - st.lastMoveTime then
      let mv2 := quickMoveToTarget c d.randA d.randB d.qmU d.qmOffPct d.qmOffX d.qmOffY now mv
      (mv2, { st with currentX := st.currentX + d.randA, currentY := st.currentY + d.randB,
                      exploratoryMovesLeft := st.exploratoryMovesLeft - 1,
                      lastMoveTime := now }, [], false)
    else (mv, st, [], false)
  else if st.timeAtExploration < st.totalTimeAtExploration then
    let s0 := st.explorationStartTime.getD now
    (mv, { st with explorationStartTime := some s0, timeAtExploration := now - s0 }, [], false)
  else (mv, st, [], true)

/-- `RandomMovementMode` state dict. -/
structure RandState where
  targetX : ℤ
  targetY : ℤ
  randomMovesLeft : ℤ
  currentX : ℤ
  currentY : ℤ
  pauseTime : ℚ
  totalPauseTime : ℚ
  lastMoveTime : ℚ
  pauseStartTime : Option ℚ
  deriving DecidableEq

/-- `RandomMovementMode.update` (0.5-second inter-move cooldown). -/
def randomUpdate (c : Consts) (now : ℚ) (d : Draws) (mv : MoverState) (st : RandState) :
    MoverState × RandState × List (ℤ × ℤ) × Bool :=
  if mv.active then
    let r := moverUpdate mv
    (r.1, st, r.2.1.toList, false)
  else if st.randomMovesLeft > 0 then
    if st.lastMoveTime = 0 ∨ 1 / 2 ≤ now - st.lastMoveTime then
      let mv2 := quickMoveToTarget c d.randA d.randB d.qmU d.qmOffPct d.qmOffX d.qmOffY now mv
      (mv2, { st with currentX := st.currentX + d.randA, currentY := st.currentY + d.randB,
                      randomMovesLeft := st.randomMovesLeft - 1,
                      lastMoveTime := now }, [], false)
    else (mv, st, [], false)
  else if st.pauseTime < st.totalPauseTime then
    let s0 := st.pauseStartTime.getD now
    (mv, { st with pauseStartTime := some s0, pauseTime := now - s0 }, [], false)
  else (mv, st, [], true)

/-- `CircularMovementMode` state dict. -/
structure CircState where
  centerX : ℤ
  centerY : ℤ
  radiusX : ℤ
  radiusY : ℤ
  currentAngle : ℚ
  angleStep : ℚ
  stepsCompleted : ℕ
  totalSteps : ℕ
  timeAtLocation : ℚ
  totalTimeAtLocation : ℚ
  timeOffset : ℚ
  prevX : Option ℚ
  prevY : Option ℚ
  locationStartTime : Option ℚ
  deriving DecidableEq

/-- `CircularMovementMode._fast_sin` given the 361-entry lookup table
`sinT` (`int(math.sin(deg·π/180) * 10000)`, kept abstract since it is
built from the float `math.sin`): degree index is
`int((angle_rad * 57.2957795) % 360)`. -/
def fastSinLUT (sinT : ℕ → ℤ) (angleRad : ℚ) : ℚ :=
  let angleDeg := (pyInt (pyFmod (angleRad * (572957795 / 10000000)) 360)).toNat
  (sinT angleDeg : ℚ) / 10000

/-- `CircularMovementMode._fast_cos`: `sin(x + 1.5708)`. -/
def fastCosLUT (sinT : ℕ → ℤ) (angleRad : ℚ) : ℚ :=
  fastSinLUT sinT (angleRad + 15708 / 10000)

/-- `CircularMovementMode.update` (note: it never consults
`mouse_mover.active`). -/
def circUpdate (c : Consts) (sinT : ℕ → ℤ) (now : ℚ) (d : Draws) (mv : MoverState)
    (st : CircState) : MoverState × CircState × List (ℤ × ℤ) × Bool :=
  if st.stepsCompleted < st.totalSteps then
    let newX := (st.centerX : ℚ) + (st.radiusX : ℚ) * fastCosLUT sinT st.currentAngle
    let newY := (st.centerY : ℚ) + (st.radiusY : ℚ) * fastSinLUT sinT st.currentAngle
    let newX2 := newX + (pyInt (d.noiseA * 2) : ℚ)
    let newY2 := newY + (pyInt (d.noiseB * 2) : ℚ)
    let pv : ℚ × ℚ :=
      match st.prevX, st.prevY with
      | some a, some b => (a, b)
      | _, _ => (newX2, newY2)
    let ax := pyInt (newX2 - pv.1)
    let ay := pyInt (newY2 - pv.2)
    let sc := st.stepsCompleted + 1
    let newAngle := st.currentAngle + st.angleStep
    let step2 :=
      if d.roll < c.circleSpeedChangeProbability / 100 ∧ 5 < sc then
        max (c.circleNewAngleStepMin / 100)
          (min (c.circleNewAngleStepMax / 100) (st.angleStep * (d.factor / 100)))
      else st.angleStep
    (mv, { st with prevX := some newX2, prevY := some newY2, currentAngle := newAngle,
                   stepsCompleted := sc, angleStep := step2 }, [(ax, ay)], false)
  else if st.timeAtLocation < st.totalTimeAtLocation then
    let s0 := st.locationStartTime.getD now
    (mv, { st with locationStartTime := some s0, timeAtLocation := now - s0 }, [], false)
  else (mv, st, [], true)

/-- `TargetFocusMode` state dict. -/
structure FocusState where
  centerX : ℤ
  centerY : ℤ
  currentX : ℤ
  currentY : ℤ
  focusDuration : ℚ
  totalFocusDuration : ℚ
  microMovementsLeft : ℤ
  timeOffset : ℚ
  focusStartTime : Option ℚ
  deriving DecidableEq

/-- `TargetFocusMode._apply_gravity_pull`. -/
def applyGravityPull (currentX currentY targetX targetY : ℤ) (strength : ℚ) : ℤ × ℤ :=
  let dx := targetX - currentX
  let dy := targetY - currentY
  let distance := fastDistance dx dy
  if 0 < distance then
    let strengthInt := pyInt (strength * 100)
    (Int.fdiv (dx * strengthInt * distance) (distance * 100),
     Int.fdiv (dy * strengthInt * distance) (distance * 100))
  else (0, 0)

/-- `TargetFocusMode.update` (gravity pull at call-site strength 0.15; the
dwell phase occasionally emits a probability-gated noise nudge). -/
def focusUpdate (c : Consts) (now : ℚ) (d : Draws) (mv : MoverState) (st : FocusState) :
    MoverState × FocusState × List (ℤ × ℤ) × Bool :=
  if mv.active then
    let r := moverUpdate mv
    (r.1, st, r.2.1.toList, false)
  else if st.microMovementsLeft > 0 then
    let pull := applyGravityPull st.currentX st.currentY st.centerX st.centerY (15 / 100)
    let mx := pull.1 + pyInt (d.noiseA * 3)
    let my := pull.2 + pyInt (d.noiseB * 3)
    (mv, { st with currentX := st.currentX + mx, currentY := st.currentY + my,
                   microMovementsLeft := st.microMovementsLeft - 1 }, [(mx, my)], false)
  else if st.focusDuration < st.totalFocusDuration then
    let s0 := st.focusStartTime.getD now
    let fd := now - s0
    if d.roll < c.targetFocusAdditionalMoveProbability then
      let mx := pyInt (d.noiseA * 5)
      let my := pyInt (d.noiseB * 5)
      (mv, { st with focusStartTime := some s0, focusDuration := fd,
                     currentX := st.currentX + mx, currentY := st.currentY + my },
        [(mx, my)], false)
    else
      (mv, { st with focusStartTime := some s0, focusDuration := fd }, [], false)
  else (mv, st, [], true)

/-- The state of whichever of the six modes is running. -/
inductive ModeState
  | web (st : WebState)
  | scan (st : ScanState)
  | explore (st : ExploreState)
  | randomMove (st : RandState)
  | circular (st : CircState)
  | focus (st : FocusState)
  deriving DecidableEq

/-- `Mode.update(state)` dispatched over the six mode implementations. -/
def modeUpdate (c : Consts) (sinT : ℕ → ℤ) (now : ℚ) (d : Draws) (mv : MoverState) :
    ModeState → MoverState × ModeState × List (ℤ × ℤ) × Bool
  | .web st =>
    let r := webUpdate now d mv st
    (r.1, .web r.2.1, r.2.2.1, r.2.2.2)
  | .scan st =>
    let r := scanUpdate c d mv st
    (r.1, .scan r.2.1, r.2.2.1, r.2.2.2)
  | .explore st =>
    let r := exploreUpdate c now d mv st
    (r.1, .explore r.2.1, r.2.2.1, r.2.2.2)
  | .randomMove st =>
    let r := randomUpdate c now d mv st
    (r.1, .randomMove r.2.1, r.2.2.1, r.2.2.2)
  | .circular st =>
    let r := circUpdate c sinT now d mv st
    (r.1, .circular r.2.1, r.2.2.1, r.2.2.2)
  | .focus st =>
    let r := focusUpdate c now d mv st
    (r.1, .focus r.2.1, r.2.2.1, r.2.2.2)

/-- Iterated `Mode.update` calls: final Mover and mode state, all deltas
emitted across the calls, and the conjunction of the returned flags. -/
def modeIter (c : Consts) (sinT : ℕ → ℤ) :
    List (ℚ × Draws) → MoverState → ModeState →
      MoverState × ModeState × List (ℤ × ℤ) × Bool
  | [], mv, ms => (mv, ms, [], true)
  | (t, d) :: rest, mv, ms =>
    let r := modeUpdate c sinT t d mv ms
    let rr := modeIter c sinT rest r.1 r.2.1
    (rr.1, rr.2.1, r.2.2.1 ++ rr.2.2.1, r.2.2.2 && rr.2.2.2)

/-- The terminal condition of each mode's `update` (the branch conditions
under which it returns `true`). -/
def ModeDone (mv : MoverState) : ModeState → Prop
  | .web st => mv.active = false ∧ ¬ st.smallMovesLeft > 0 ∧
      ¬ st.timeAtLocation < st.totalTimeAtLocation
  | .scan st => mv.active = false ∧ ¬ st.currentStep < st.steps ∧
      st.totalScans ≤ st.scanCount + 1
  | .explore st => mv.active = false ∧ ¬ st.exploratoryMovesLeft > 0 ∧
      ¬ st.timeAtExploration < st.totalTimeAtExploration
  | .randomMove st => mv.active = false ∧ ¬ st.randomMovesLeft > 0 ∧
      ¬ st.pauseTime < st.totalPauseTime
  | .circular st => ¬ st.stepsCompleted < st.totalSteps ∧
      ¬ st.timeAtLocation < st.totalTimeAtLocation
  | .focus st => mv.active = false ∧ ¬ st.microMovementsLeft > 0 ∧
      ¬ st.focusDuration < st.totalFocusDuration

theorem webUpdate_done (now : ℚ) (d : Draws) (mv : MoverState) (st : WebState)
    (mv' : MoverState) (st' : WebState) (ems : List (ℤ × ℤ))
    (h : webUpdate now d mv st = (mv', st', ems, true)) :
    mv' = mv ∧ ems = [] ∧ mv.active = false ∧ st' = st ∧
      ¬ st.smallMovesLeft > 0 ∧ ¬ st.timeAtLocation < st.totalTimeAtLocation := by
  unfold webUpdate at h
  split_ifs at h with h1 h2 h3
  · simp only [Prod.mk.injEq] at h
    exact absurd h.2.2.2 (by simp)
  · simp only [Prod.mk.injEq] at h
    exact absurd h.2.2.2 (by simp)
  · simp only [Prod.mk.injEq] at h
    exact absurd h.2.2.2 (by simp)
  · simp only [Prod.mk.injEq] at h
    obtain ⟨hmv, hst, hems, -⟩ := h
    exact ⟨hmv.symm, hems.symm, by simpa using h1, hst.symm, h2, h3⟩

theorem webUpdate_stays_done (now : ℚ) (d : Draws) (mv : MoverState) (st : WebState)
    (hmv : mv.active = false) (h2 : ¬ st.smallMovesLeft > 0)
    (h3 : ¬ st.timeAtLocation < st.totalTimeAtLocation) :
    webUpdate now d mv st = (mv, st, [], true) := by
  unfold webUpdate
  simp [hmv, h2, h3]

theorem exploreUpdate_done (c : Consts) (now : ℚ) (d : Draws) (mv : MoverState)
    (st : ExploreState) (mv' : MoverState) (st' : ExploreState) (ems : List (ℤ × ℤ))
    (h : exploreUpdate c now d mv st = (mv', st', ems, true)) :
    mv' = mv ∧ ems = [] ∧ mv.active = false ∧ st' = st ∧
      ¬ st.exploratoryMovesLeft > 0 ∧
      ¬ st.timeAtExploration < st.totalTimeAtExploration := by
  unfold exploreUpdate at h
  split_ifs at h with h1 h2 hc h3 <;>
    simp only [Prod.mk.injEq] at h
  · exact absurd h.2.2.2 (by simp)
  · exact absurd h.2.2.2 (by simp)
  · exact absurd h.2.2.2 (by simp)
  · exact absurd h.2.2.2 (by simp)
  · obtain ⟨hmv, hst, hems, -⟩ := h
    exact ⟨hmv.symm, hems.symm, by simpa using h1, hst.symm, h2, h3⟩

theorem exploreUpdate_stays_done (c : Consts) (now : ℚ) (d : Draws) (mv : MoverState)
    (st : ExploreState) (hmv : mv.active = false) (h2 : ¬ st.exploratoryMovesLeft > 0)
    (h3 : ¬ st.timeAtExploration < st.totalTimeAtExploration) :
    exploreUpdate c now d mv st = (mv, st, [], true) := by
  unfold exploreUpdate
  simp [hmv, h2, h3]

theorem randomUpdate_done (c : Consts) (now : ℚ) (d : Draws) (mv : MoverState)
    (st : RandState) (mv' : MoverState) (st' : RandState) (ems : List (ℤ × ℤ))
    (h : randomUpdate c now d mv st = (mv', st', ems, true)) :
    mv' = mv ∧ ems = [] ∧ mv.active = false ∧ st' = st ∧
      ¬ st.randomMovesLeft > 0 ∧ ¬ st.pauseTime < st.totalPauseTime := by
  unfold randomUpdate at h
  split_ifs at h with h1 h2 hc h3 <;>
    simp only [Prod.mk.injEq] at h
  · exact absurd h.2.2.2 (by simp)
  · exact absurd h.2.2.2 (by simp)
  · exact absurd h.2.2.2 (by simp)
  · exact absurd h.2.2.2 (by simp)
  · obtain ⟨hmv, hst, hems, -⟩ := h
    exact ⟨hmv.symm, hems.symm, by simpa using h1, hst.symm, h2, h3⟩

theorem randomUpdate_stays_done (c : Consts) (now : ℚ) (d : Draws) (mv : MoverState)
    (st : RandState) (hmv : mv.active = false) (h2 : ¬ st.randomMovesLeft > 0)
    (h3 : ¬ st.pauseTime < st.totalPauseTime) :
    randomUpdate c now d mv st = (mv, st, [], true) := by
  unfold randomUpdate
  simp [hmv, h2, h3]

theorem focusUpdate_done (c : Consts) (now : ℚ) (d : Draws) (mv : MoverState)
    (st : FocusState) (mv' : MoverState) (st' : FocusState) (ems : List (ℤ × ℤ))
    (h : focusUpdate c now d mv st = (mv', st', ems, true)) :
    mv' = mv ∧ ems = [] ∧ mv.active = false ∧ st' = st ∧
      ¬ st.microMovementsLeft > 0 ∧ ¬ st.focusDuration < st.totalFocusDuration := by
  unfold focusUpdate at h
  split_ifs at h with h1 h2 h3 hp <;>
    simp only [Prod.mk.injEq] at h
  · exact absurd h.2.2.2 (by simp)
  · exact absurd h.2.2.2 (by simp)
  · exact absurd h.2.2.2 (by simp)
  · exact absurd h.2.2.2 (by simp)
  · obtain ⟨hmv, hst, hems, -⟩ := h
    exact ⟨hmv.symm, hems.symm, by simpa using h1, hst.symm, h2, h3⟩

theorem focusUpdate_stays_done (c : Consts) (now : ℚ) (d : Draws) (mv : MoverState)
    (st : FocusState) (hmv : mv.active = false) (h2 : ¬ st.microMovementsLeft > 0)
    (h3 : ¬ st.focusDuration < st.totalFocusDuration) :
    focusUpdate c now d mv st = (mv, st, [], true) := by
  unfold focusUpdate
  simp [hmv, h2, h3]

theorem circUpdate_done (c : Consts) (sinT : ℕ → ℤ) (now : ℚ) (d : Draws)
    (mv : MoverState) (st : CircState) (mv' : MoverState) (st' : CircState)
    (ems : List (ℤ × ℤ))
    (h : circUpdate c sinT now d mv st = (mv', st', ems, true)) :
    mv' = mv ∧ ems = [] ∧ st' = st ∧
      ¬ st.stepsCompleted < st.totalSteps ∧
      ¬ st.timeAtLocation < st.totalTimeAtLocation := by
  unfold circUpdate at h
  split_ifs at h with h1 h2 <;>
    simp only [Prod.mk.injEq] at h
  · exact absurd h.2.2.2 (by simp)
  · exact absurd h.2.2.2 (by simp)
  · obtain ⟨hmv, hst, hems, -⟩ := h
    exact ⟨hmv.symm, hems.symm, hst.symm, h1, h2⟩

theorem circUpdate_stays_done (c : Consts) (sinT : ℕ → ℤ) (now : ℚ) (d : Draws)
    (mv : MoverState) (st : CircState) (h1 : ¬ st.stepsCompleted < st.totalSteps)
    (h2 : ¬ st.timeAtLocation < st.totalTimeAtLocation) :
    circUpdate c sinT now d mv st = (mv, st, [], true) := by
  unfold circUpdate
  simp [h1, h2]

theorem scanUpdate_flag_of_active (c : Consts) (d : Draws) (mv : MoverState)
    (st : ScanState) (hmv : mv.active = true) :
    (scanUpdate c d mv st).2.2.2 = false := by
  unfold scanUpdate
  simp [hmv]

theorem scanUpdate_flag_of_running (c : Consts) (d : Draws) (mv : MoverState)
    (st : ScanState) (hmv : mv.active = false) (hlt : st.currentStep < st.steps) :
    (scanUpdate c d mv st).2.2.2 = false := by
  unfold scanUpdate
  simp only [hmv, Bool.false_eq_true, if_false, hlt, if_true]
  dsimp only
  split_ifs <;> first
    | rfl
    | (cases d.choice3 <;> rfl)

theorem scanUpdate_flag_of_flip (c : Consts) (d : Draws) (mv : MoverState)
    (st : ScanState) (hmv : mv.active = false) (hlt : ¬ st.currentStep < st.steps)
    (hsc : ¬ st.totalScans ≤ st.scanCount + 1) :
    (scanUpdate c d mv st).2.2.2 = false := by
  unfold scanUpdate
  simp [hmv, hlt, hsc]

theorem scanUpdate_stays_done (c : Consts) (d : Draws) (mv : MoverState)
    (st : ScanState) (hmv : mv.active = false) (h2 : ¬ st.currentStep < st.steps)
    (hsc : st.totalScans ≤ st.scanCount + 1) :
    scanUpdate c d mv st = (mv, { st with scanCount := st.scanCount + 1 }, [], true) := by
  unfold scanUpdate
  simp [hmv, h2, hsc]

theorem scanUpdate_done (c : Consts) (d : Draws) (mv : MoverState)
    (st : ScanState) (mv' : MoverState) (st' : ScanState) (ems : List (ℤ × ℤ))
    (h : scanUpdate c d mv st = (mv', st', ems, true)) :
    mv' = mv ∧ ems = [] ∧ mv.active = false ∧
      st' = { st with scanCount := st.scanCount + 1 } ∧
      ¬ st'.currentStep < st'.steps ∧ st'.totalScans ≤ st'.scanCount + 1 := by
  by_cases h1 : mv.active = true
  · have hf := scanUpdate_flag_of_active c d mv st h1
    rw [h] at hf
    simp at hf
  have h1' : mv.active = false := by simpa using h1
  by_cases h2 : st.currentStep < st.steps
  · have hf := scanUpdate_flag_of_running c d mv st h1' h2
    rw [h] at hf
    simp at hf
  by_cases h3 : st.totalScans ≤ st.scanCount + 1
  · rw [scanUpdate_stays_done c d mv st h1' h2 h3] at h
    simp only [Prod.mk.injEq] at h
    obtain ⟨hmv, hst, hems, -⟩ := h
    refine ⟨hmv.symm, hems.symm, h1', hst.symm, ?_, ?_⟩
    · rw [← hst]
      exact h2
    · rw [← hst]
      dsimp only
      omega
  · have hf := scanUpdate_flag_of_flip c d mv st h1' h2 h3
    rw [h] at hf
    simp at hf

theorem modeUpdate_done (c : Consts) (sinT : ℕ → ℤ) (now : ℚ) (d : Draws)
    (mv : MoverState) (ms : ModeState) (mv' : MoverState) (ms' : ModeState)
    (ems : List (ℤ × ℤ)) (h : modeUpdate c sinT now d mv ms = (mv', ms', ems, true)) :
    mv' = mv ∧ ems = [] ∧ ModeDone mv' ms' := by
  cases ms with
  | web st =>
    rcases hr : webUpdate now d mv st with ⟨m2, s2, e2, f2⟩
    simp only [modeUpdate, hr, Prod.mk.injEq] at h
    obtain ⟨hm, hms, he, hf⟩ := h
    obtain ⟨hmm, hee, hact, hss, hc2, hc3⟩ :=
      webUpdate_done now d mv st m2 s2 e2 (by rw [hr, hf])
    subst hm hms he hmm hss
    exact ⟨rfl, hee, hact, hc2, hc3⟩
  | scan st =>
    rcases hr : scanUpdate c d mv st with ⟨m2, s2, e2, f2⟩
    simp only [modeUpdate, hr, Prod.mk.injEq] at h
    obtain ⟨hm, hms, he, hf⟩ := h
    obtain ⟨hmm, hee, hact, hss, hc2, hc3⟩ :=
      scanUpdate_done c d mv st m2 s2 e2 (by rw [hr, hf])
    subst hm hms he hmm
    exact ⟨rfl, hee, hact, hc2, hc3⟩
  | explore st =>
    rcases hr : exploreUpdate c now d mv st with ⟨m2, s2, e2, f2⟩
    simp only [modeUpdate, hr, Prod.mk.injEq] at h
    obtain ⟨hm, hms, he, hf⟩ := h
    obtain ⟨hmm, hee, hact, hss, hc2, hc3⟩ :=
      exploreUpdate_done c now d mv st m2 s2 e2 (by rw [hr, hf])
    subst hm hms he hmm hss
    exact ⟨rfl, hee, hact, hc2, hc3⟩
  | randomMove st =>
    rcases hr : randomUpdate c now d mv st with ⟨m2, s2, e2, f2⟩
    simp only [modeUpdate, hr, Prod.mk.injEq] at h
    obtain ⟨hm, hms, he, hf⟩ := h
    obtain ⟨hmm, hee, hact, hss, hc2, hc3⟩ :=
      randomUpdate_done c now d mv st m2 s2 e2 (by rw [hr, hf])
    subst hm hms he hmm hss
    exact ⟨rfl, hee, hact, hc2, hc3⟩
  | circular st =>
    rcases hr : circUpdate c sinT now d mv st with ⟨m2, s2, e2, f2⟩
    simp only [modeUpdate, hr, Prod.mk.injEq] at h
    obtain ⟨hm, hms, he, hf⟩ := h
    obtain ⟨hmm, hee, hss, hc2, hc3⟩ :=
      circUpdate_done c sinT now d mv st m2 s2 e2 (by rw [hr, hf])
    subst hm hms he hmm hss
    exact ⟨rfl, hee, hc2, hc3⟩
  | focus st =>
    rcases hr : focusUpdate c now d mv st with ⟨m2, s2, e2, f2⟩
    simp only [modeUpdate, hr, Prod.mk.injEq] at h
    obtain ⟨hm, hms, he, hf⟩ := h
    obtain ⟨hmm, hee, hact, hss, hc2, hc3⟩ :=
      focusUpdate_done c now d mv st m2 s2 e2 (by rw [hr, hf])
    subst hm hms he hmm hss
    exact ⟨rfl, hee, hact, hc2, hc3⟩

theorem modeUpdate_stays_done (c : Consts) (sinT : ℕ → ℤ) (now : ℚ) (d : Draws)
    (mv : MoverState) (ms : ModeState) (hd : ModeDone mv ms) :
    ∃ ms2, modeUpdate c sinT now d mv ms = (mv, ms2, [], true) ∧ ModeDone mv ms2 := by
  cases ms with
  | web st =>
    exact ⟨.web st,
      by simp [modeUpdate, webUpdate_stays_done now d mv st hd.1 hd.2.1 hd.2.2], hd⟩
  | scan st =>
    refine ⟨.scan { st with scanCount := st.scanCount + 1 },
      by simp [modeUpdate, scanUpdate_stays_done c d mv st hd.1 hd.2.1 hd.2.2], ?_⟩
    exact ⟨hd.1, hd.2.1, by have := hd.2.2; dsimp only; omega⟩
  | explore st =>
    exact ⟨.explore st,
      by simp [modeUpdate, exploreUpdate_stays_done c now d mv st hd.1 hd.2.1 hd.2.2], hd⟩
  | randomMove st =>
    exact ⟨.randomMove st,
      by simp [modeUpdate, randomUpdate_stays_done c now d mv st hd.1 hd.2.1 hd.2.2], hd⟩
  | circular st =>
    exact ⟨.circular st,
      by simp [modeUpdate, circUpdate_stays_done c sinT now d mv st hd.1 hd.2], hd⟩
  | focus st =>
    exact ⟨.focus st,
      by simp [modeUpdate, focusUpdate_stays_done c now d mv st hd.1 hd.2.1 hd.2.2], hd⟩

/-- C3: for each of the six movement modes, once `update(state)` has
returned `true`, every further call — at any times and with any random
draws — returns `true` again, emits no pointer delta, and leaves the
Mover exactly as it was (never restarting it).  `modeIter` folds an
arbitrary list of further calls: its final Mover is unchanged, its
accumulated emission list is empty, and the conjunction of all returned
flags is `true`. -/
theorem mode_update_idempotent_after_done
    (c : Consts) (sinT : ℕ → ℤ) (now : ℚ) (d : Draws) (mv : MoverState) (ms : ModeState)
    (mv' : MoverState) (ms' : ModeState) (ems : List (ℤ × ℤ))
    (h : modeUpdate c sinT now d mv ms = (mv', ms', ems, true)) :
    mv' = mv ∧
    ∀ future : List (ℚ × Draws),
      (modeIter c sinT future mv' ms').1 = mv' ∧
      (modeIter c sinT future mv' ms').2.2.1 = [] ∧
      (modeIter c sinT future mv' ms').2.2.2 = true := by
  obtain ⟨hmv, hems, hdone⟩ := modeUpdate_done c sinT now d mv ms mv' ms' ems h
  refine ⟨hmv, ?_⟩
  have key : ∀ (future : List (ℚ × Draws)) (ms0 : ModeState), ModeDone mv' ms0 →
      (modeIter c sinT future mv' ms0).1 = mv' ∧
      (modeIter c sinT future mv' ms0).2.2.1 = [] ∧
      (modeIter c sinT future mv' ms0).2.2.2 = true := by
    intro future
    induction future with
    | nil => exact fun ms0 _ => ⟨rfl, rfl, rfl⟩
    | cons td rest ih =>
      intro ms0 h0
      obtain ⟨t2, d2⟩ := td
      obtain ⟨ms2, hstep, h2⟩ := modeUpdate_stays_done c sinT t2 d2 mv' ms0 h0
      obtain ⟨ih1, ih2, ih3⟩ := ih ms2 h2
      simp only [modeIter, hstep]
      exact ⟨ih1, by simp [ih2], by simp [ih3]⟩
  exact fun future => key future ms' hdone

/-- A fixed oracle record used by the C3 witness. -/
def sampleDraws : Draws :=
  { randA := 0, randB := 0, noiseA := 0, noiseB := 0, roll := 0, factor := 100,
    interval := 10, choice3 := .normal, windN := fun _ => (0, 0), scanOffY := 0,
    yOffset := 0, qmU := 1, qmOffPct := 0, qmOffX := 0, qmOffY := 0 }

/-- A completed `WebBrowsingMode` state used by the C3 witness. -/
def sampleWebDone : WebState :=
  { targetX := 0, targetY := 0, smallMovesLeft := 0, currentX := 0, currentY := 0,
    timeAtLocation := 5, totalTimeAtLocation := 1, timeOffset := 0, startTime := none }

/-- Witness for C3: a completed web-browsing state on a fresh Mover —
the next call (and the one after) emits nothing and returns `true`. -/
theorem mode_update_idempotent_after_done_witness :
    (modeIter specConsts (fun _ => 0) [(7, sampleDraws), (9, sampleDraws)]
        initMover (.web sampleWebDone)).1 = initMover ∧
    (modeIter specConsts (fun _ => 0) [(7, sampleDraws), (9, sampleDraws)]
        initMover (.web sampleWebDone)).2.2.1 = [] ∧
    (modeIter specConsts (fun _ => 0) [(7, sampleDraws), (9, sampleDraws)]
        initMover (.web sampleWebDone)).2.2.2 = true :=
  (mode_update_idempotent_after_done specConsts (fun _ => 0) 3 sampleDraws
      initMover (.web sampleWebDone) initMover (.web sampleWebDone) []
      (by with_unfolding_all rfl)).2
    [(7, sampleDraws), (9, sampleDraws)]

end PicoMouse
